import Mathlib

/-! # TX16S 6-position switch firmware (`main.c`)

A shallow embedding of the timer-tick logic of `main.c`: the Knight-Rider
start-up animation (`StartupAnimation`), the button debounce routine
(`ButtonPos`) and the tick dispatcher (`Timer3_ISR`), followed by theorems
about them.

Conventions of the embedding:
* `unsigned` / `unsigned short` / `uint16_t` values are `Nat`, reduced
  `% 65536` wherever the C code does arithmetic on them;
* `short` values are `Int`; `++` and `--` wrap to the 16-bit signed range;
* the port bits `LEDn` and `BUTTONn` are `Bool` (`true` = logic 1), so a
  switch is *active* when its `BUTTON` bit is `false`;
* the `static` variables of `ButtonPos` are the record `Statics`, the globals
  and the special function registers written by the tick are `Device`.
-/

namespace TX16S

/-! ## Global constants (lines 83-91) -/

/-- Tick count for the switch change to count. -/
def DEBOUNCECOUNT : Int := 10

/-- Startup animation step count. -/
def STARTUPANIMSTEP : Nat := 50

/-- Count runs to do the Knight-Rider lights. -/
def ANIMATIONCOUNT : Nat := 4

/-- Highest DAC output. -/
def DACMAX : Nat := 0x3FFF

/-- DAC output step size between positions. -/
def DACSTEP : Nat := DACMAX / 5

/-! ## State -/

/-- The six button port bits as sampled on one tick (`true` = logic 1 = not switched). -/
structure Pins where
  BUTTON1 : Bool
  BUTTON2 : Bool
  BUTTON3 : Bool
  BUTTON4 : Bool
  BUTTON5 : Bool
  BUTTON6 : Bool
  deriving DecidableEq, Repr

/-- The `static` variables of `ButtonPos` (lines 255-262). -/
structure Statics where
  btn1 : Int
  btn2 : Int
  btn3 : Int
  btn4 : Int
  btn5 : Int
  btn6 : Int
  btnpos : Nat
  deriving DecidableEq, Repr

/-- The global `appState`, the LED port bits, the DAC register and the statics of `ButtonPos`. -/
structure Device where
  appState : Nat
  LED1 : Bool
  LED2 : Bool
  LED3 : Bool
  LED4 : Bool
  LED5 : Bool
  LED6 : Bool
  IDA0 : Nat
  statics : Statics
  deriving DecidableEq, Repr

/-- Initial values of the statics of `ButtonPos`. -/
def bootStatics : Statics :=
  { btn1 := 0, btn2 := 0, btn3 := 0, btn4 := 0, btn5 := 0, btn6 := 0, btnpos := 1 }

/-- The state after `Init_Device`: `appState = 0`, LEDs off (`Port_IO_Init`), `IDA0 = 0` (`DAC_Init`). -/
def boot : Device :=
  { appState := 0, LED1 := false, LED2 := false, LED3 := false, LED4 := false,
    LED5 := false, LED6 := false, IDA0 := 0, statics := bootStatics }

/-! ## Machine arithmetic -/

/-- Conversion of an integer to the 16-bit signed range of `short`. -/
def toShort (x : Int) : Int := (x + 32768) % 65536 - 32768

/-- The statement `b++` on a `short`. -/
def incr (x : Int) : Int := toShort (x + 1)

/-- The statement `b--` on a `short`. -/
def decr (x : Int) : Int := toShort (x - 1)

/-- Writes all six LED bits. -/
def setLEDs (d : Device) (l1 l2 l3 l4 l5 l6 : Bool) : Device :=
  { d with LED1 := l1, LED2 := l2, LED3 := l3, LED4 := l4, LED5 := l5, LED6 := l6 }

/-! ## `StartupAnimation` (lines 228-247) -/

/-- Subtraction of `unsigned` (16-bit) values. -/
def usub (a b : Nat) : Nat := (a % 65536 + (65536 - b % 65536)) % 65536

/-- Lines 237-246: the cascade of range tests on `lightRunPos`. -/
def sweep (d : Device) (lightRunPos : Nat) : Device :=
  if lightRunPos < STARTUPANIMSTEP then setLEDs d false true false false false false
  else if lightRunPos < 2 * STARTUPANIMSTEP then setLEDs d false false true false false false
  else if lightRunPos < 3 * STARTUPANIMSTEP then setLEDs d false false false true false false
  else if lightRunPos < 4 * STARTUPANIMSTEP then setLEDs d false false false false true false
  else if lightRunPos < 5 * STARTUPANIMSTEP then setLEDs d false false false false false true
  else if lightRunPos < 6 * STARTUPANIMSTEP then setLEDs d false false false false true false
  else if lightRunPos < 7 * STARTUPANIMSTEP then setLEDs d false false false true false false
  else if lightRunPos < 8 * STARTUPANIMSTEP then setLEDs d false false true false false false
  else if lightRunPos < 9 * STARTUPANIMSTEP then setLEDs d false true false false false false
  else if lightRunPos < 10 * STARTUPANIMSTEP then setLEDs d true false false false false false
  else d

/-- Knight-Rider start-up animation. -/
def StartupAnimation (d0 : Device) : Device :=
  let d := { d0 with appState := (d0.appState + 1) % 65536 }
  if usub d.appState 1 < STARTUPANIMSTEP then setLEDs d true false false false false false
  else sweep d (usub (usub d.appState 1) STARTUPANIMSTEP % (10 * STARTUPANIMSTEP))

/-! ## `ButtonPos` (lines 253-288) -/

/-- Line 265: `if (!BUTTON1) {btn1++; btn2--; ...} else btn1--;`. -/
def weigh1 (b : Bool) (s : Statics) : Statics :=
  if !b then { s with btn1 := incr s.btn1, btn2 := decr s.btn2, btn3 := decr s.btn3,
                      btn4 := decr s.btn4, btn5 := decr s.btn5, btn6 := decr s.btn6 }
  else { s with btn1 := decr s.btn1 }

/-- Line 266. -/
def weigh2 (b : Bool) (s : Statics) : Statics :=
  if !b then { s with btn1 := decr s.btn1, btn2 := incr s.btn2, btn3 := decr s.btn3,
                      btn4 := decr s.btn4, btn5 := decr s.btn5, btn6 := decr s.btn6 }
  else { s with btn2 := decr s.btn2 }

/-- Line 267. -/
def weigh3 (b : Bool) (s : Statics) : Statics :=
  if !b then { s with btn1 := decr s.btn1, btn2 := decr s.btn2, btn3 := incr s.btn3,
                      btn4 := decr s.btn4, btn5 := decr s.btn5, btn6 := decr s.btn6 }
  else { s with btn3 := decr s.btn3 }

/-- Line 268. -/
def weigh4 (b : Bool) (s : Statics) : Statics :=
  if !b then { s with btn1 := decr s.btn1, btn2 := decr s.btn2, btn3 := decr s.btn3,
                      btn4 := incr s.btn4, btn5 := decr s.btn5, btn6 := decr s.btn6 }
  else { s with btn4 := decr s.btn4 }

/-- Line 269. -/
def weigh5 (b : Bool) (s : Statics) : Statics :=
  if !b then { s with btn1 := decr s.btn1, btn2 := decr s.btn2, btn3 := decr s.btn3,
                      btn4 := decr s.btn4, btn5 := incr s.btn5, btn6 := decr s.btn6 }
  else { s with btn5 := decr s.btn5 }

/-- Line 270. -/
def weigh6 (b : Bool) (s : Statics) : Statics :=
  if !b then { s with btn1 := decr s.btn1, btn2 := decr s.btn2, btn3 := decr s.btn3,
                      btn4 := decr s.btn4, btn5 := decr s.btn5, btn6 := incr s.btn6 }
  else { s with btn6 := decr s.btn6 }

/-- One line of 273-278: `if (b < 0) b = 0; if (b > DEBOUNCECOUNT) b = DEBOUNCECOUNT;`. -/
def limit (b0 : Int) : Int :=
  let b := if b0 < 0 then 0 else b0
  if b > DEBOUNCECOUNT then DEBOUNCECOUNT else b

/-- Lines 273-278: limit values between 0 and `DEBOUNCECOUNT`. -/
def limitAll (s : Statics) : Statics :=
  { s with btn1 := limit s.btn1, btn2 := limit s.btn2, btn3 := limit s.btn3,
           btn4 := limit s.btn4, btn5 := limit s.btn5, btn6 := limit s.btn6 }

/-- Lines 280-285: the six assignments to `btnpos`, in source order. -/
def scan (s : Statics) : Nat :=
  let btnpos := s.btnpos
  let btnpos := if s.btn1 = DEBOUNCECOUNT then 1 else btnpos
  let btnpos := if s.btn2 = DEBOUNCECOUNT then 2 else btnpos
  let btnpos := if s.btn3 = DEBOUNCECOUNT then 3 else btnpos
  let btnpos := if s.btn4 = DEBOUNCECOUNT then 4 else btnpos
  let btnpos := if s.btn5 = DEBOUNCECOUNT then 5 else btnpos
  let btnpos := if s.btn6 = DEBOUNCECOUNT then 6 else btnpos
  btnpos

/-- Button debounce routine: returns `btnpos` together with the updated statics. -/
def ButtonPos (s0 : Statics) (p : Pins) : Nat × Statics :=
  let s := weigh1 p.BUTTON1 s0
  let s := weigh2 p.BUTTON2 s
  let s := weigh3 p.BUTTON3 s
  let s := weigh4 p.BUTTON4 s
  let s := weigh5 p.BUTTON5 s
  let s := weigh6 p.BUTTON6 s
  let s := limitAll s
  let s := { s with btnpos := scan s }
  (s.btnpos, s)

/-! ## `Timer3_ISR` (lines 301-338) -/

/-- The `switch` of lines 309-336 on the value returned by `ButtonPos`. -/
def outputSwitch (v : Nat) (d : Device) : Device :=
  match v with
  | 6 => { setLEDs d false false false false false true with IDA0 := (5 * DACSTEP) % 65536 }
  | 5 => { setLEDs d false false false false true false with IDA0 := (4 * DACSTEP) % 65536 }
  | 4 => { setLEDs d false false false true false false with IDA0 := (3 * DACSTEP) % 65536 }
  | 3 => { setLEDs d false false true false false false with IDA0 := (2 * DACSTEP) % 65536 }
  | 2 => { setLEDs d false true false false false false with IDA0 := DACSTEP % 65536 }
  | _ => { setLEDs d true false false false false false with IDA0 := 0 }

/-- The timer tick. (Clearing the overflow flag in `TMR3CN` is not modelled.) -/
def Timer3_ISR (d : Device) (p : Pins) : Device :=
  if d.appState < 10 * STARTUPANIMSTEP * ANIMATIONCOUNT + STARTUPANIMSTEP then StartupAnimation d
  else
    let r := ButtonPos d.statics p
    outputSwitch r.1 { d with statics := r.2 }

/-- The device after a sequence of ticks, one `Pins` sample per tick. -/
def run (d : Device) (ps : List Pins) : Device := ps.foldl Timer3_ISR d

/-- The statics after a sequence of `ButtonPos` calls. -/
def calls (s : Statics) (ps : List Pins) : Statics := ps.foldl (fun s p => (ButtonPos s p).2) s

/-! ## Vocabulary of the properties -/

/-- Counter of position `i` (`btn1` .. `btn6`). -/
def Statics.counter (s : Statics) (i : Nat) : Int :=
  match i with
  | 1 => s.btn1
  | 2 => s.btn2
  | 3 => s.btn3
  | 4 => s.btn4
  | 5 => s.btn5
  | 6 => s.btn6
  | _ => 0

/-- Whether switch `i` is active (its port bit reads 0). -/
def Pins.active (p : Pins) (i : Nat) : Bool :=
  match i with
  | 1 => !p.BUTTON1
  | 2 => !p.BUTTON2
  | 3 => !p.BUTTON3
  | 4 => !p.BUTTON4
  | 5 => !p.BUTTON5
  | 6 => !p.BUTTON6
  | _ => false

/-- Number of active switches. -/
def Pins.numActive (p : Pins) : Int :=
  (if p.BUTTON1 then 0 else 1) + (if p.BUTTON2 then 0 else 1) + (if p.BUTTON3 then 0 else 1)
    + (if p.BUTTON4 then 0 else 1) + (if p.BUTTON5 then 0 else 1) + (if p.BUTTON6 then 0 else 1)

/-- State of LED `i`. -/
def Device.led (d : Device) (i : Nat) : Bool :=
  match i with
  | 1 => d.LED1
  | 2 => d.LED2
  | 3 => d.LED3
  | 4 => d.LED4
  | 5 => d.LED5
  | 6 => d.LED6
  | _ => false

/-- Exactly LED `i` is lit: of the six LEDs, LED `j` is on iff `j = i`. -/
def Device.onlyLit (d : Device) (i : Nat) : Prop :=
  ∀ j, 1 ≤ j → j ≤ 6 → (d.led j = true ↔ j = i)

/-- Pin sample on which switch `i` is the only active switch. -/
def onlyActive (i : Nat) : Pins :=
  { BUTTON1 := i != 1, BUTTON2 := i != 2, BUTTON3 := i != 3,
    BUTTON4 := i != 4, BUTTON5 := i != 5, BUTTON6 := i != 6 }

/-- Pin sample on which exactly the switches `i` and `j` are active. -/
def bothActive (i j : Nat) : Pins :=
  { BUTTON1 := i != 1 && j != 1, BUTTON2 := i != 2 && j != 2, BUTTON3 := i != 3 && j != 3,
    BUTTON4 := i != 4 && j != 4, BUTTON5 := i != 5 && j != 5, BUTTON6 := i != 6 && j != 6 }

/-- Pin sample on which no switch is active. -/
def noneActive : Pins :=
  { BUTTON1 := true, BUTTON2 := true, BUTTON3 := true,
    BUTTON4 := true, BUTTON5 := true, BUTTON6 := true }

/-- All six counters lie in `[0, DEBOUNCECOUNT]`. -/
def Statics.Bounded (s : Statics) : Prop :=
  (0 ≤ s.btn1 ∧ s.btn1 ≤ DEBOUNCECOUNT) ∧ (0 ≤ s.btn2 ∧ s.btn2 ≤ DEBOUNCECOUNT) ∧
  (0 ≤ s.btn3 ∧ s.btn3 ≤ DEBOUNCECOUNT) ∧ (0 ≤ s.btn4 ∧ s.btn4 ≤ DEBOUNCECOUNT) ∧
  (0 ≤ s.btn5 ∧ s.btn5 ≤ DEBOUNCECOUNT) ∧ (0 ≤ s.btn6 ∧ s.btn6 ≤ DEBOUNCECOUNT)

/-- The device state is reached from boot by some sequence of ticks. -/
def Reachable (d : Device) : Prop := ∃ ps : List Pins, run boot ps = d

/-- The tick dispatcher takes the steady-state branch in this state. -/
def Steady (d : Device) : Prop :=
  ¬ d.appState < 10 * STARTUPANIMSTEP * ANIMATIONCOUNT + STARTUPANIMSTEP

/-- Switch `i` alone active for `n` ticks, then no switch active for `m` ticks. -/
def pressThenRelease (i n m : Nat) : List Pins :=
  List.replicate n (onlyActive i) ++ List.replicate m noneActive

/-- The change of one counter before limiting: `2 - k` for an active switch, `-1 - k` for an
inactive one, `k` being the number of active switches. -/
def Pins.delta (p : Pins) (i : Nat) : Int :=
  if p.active i then 2 - p.numActive else -1 - p.numActive

/-- What one of the lines 265-270 adds to a counter: `own` tells whether the counter is the one of
the line, `b` is the port bit tested by the line. -/
def weight (own : Bool) (b : Bool) : Int :=
  if b then (if own then -1 else 0) else (if own then 1 else -1)

/-- All six counters lie within `n` of zero. -/
def Statics.Within (s : Statics) (n : Int) : Prop :=
  (-n ≤ s.btn1 ∧ s.btn1 ≤ n) ∧ (-n ≤ s.btn2 ∧ s.btn2 ≤ n) ∧ (-n ≤ s.btn3 ∧ s.btn3 ≤ n) ∧
  (-n ≤ s.btn4 ∧ s.btn4 ≤ n) ∧ (-n ≤ s.btn5 ∧ s.btn5 ≤ n) ∧ (-n ≤ s.btn6 ∧ s.btn6 ≤ n)

/-- The statics invariant: counters within limits and a valid position. -/
def Statics.Valid (s : Statics) : Prop := s.Bounded ∧ 1 ≤ s.btnpos ∧ s.btnpos ≤ 6

/-- The state in which the animation has just ended, no switch having been touched. -/
def settled : Device := run boot (List.replicate 2050 noneActive)

/-- The LED sequence 1,2,3,4,5,6,5,4,3,2 given for bins 0..9 in the description of the sweep. -/
def sweepClaimed : List Nat := [1, 2, 3, 4, 5, 6, 5, 4, 3, 2]

/-- The LED sequence the branch cascade of `StartupAnimation` produces, bins 0..9. -/
def sweepOrder : List Nat := [2, 3, 4, 5, 6, 5, 4, 3, 2, 1]

/-- Lines 265-270 in sequence: the statics before the limiting lines 273-278. -/
def weighAll (s : Statics) (p : Pins) : Statics :=
  weigh6 p.BUTTON6 (weigh5 p.BUTTON5 (weigh4 p.BUTTON4 (weigh3 p.BUTTON3
    (weigh2 p.BUTTON2 (weigh1 p.BUTTON1 s)))))

/-- The device after the first `n` ticks from boot, the tick numbered `k` sampling the pins `f k`. -/
def ticks (f : Nat → Pins) (n : Nat) : Device := run boot ((List.range n).map f)

/-- The closed form of the animation: the LED numbered `S[(t div 50) mod 10]` with
`S = [1,2,3,4,5,6,5,4,3,2]`. -/
def animationLed (t : Nat) : Nat := sweepClaimed.getD (t / STARTUPANIMSTEP % 10) 0

/-- At most one counter is at the limit, and `btnpos` names it. -/
def Statics.UniqueWinner (s : Statics) : Prop :=
  (∀ i j, 1 ≤ i → i ≤ 6 → 1 ≤ j → j ≤ 6 →
    s.counter i = DEBOUNCECOUNT → s.counter j = DEBOUNCECOUNT → i = j) ∧
  (∀ i, 1 ≤ i → i ≤ 6 → s.counter i = DEBOUNCECOUNT → s.btnpos = i)

/-! ## Lemmas on the machine arithmetic and on one `ButtonPos` call -/

theorem toShort_of_range (x : Int) (h1 : -32768 ≤ x) (h2 : x ≤ 32767) : toShort x = x := by
  unfold toShort; omega

theorem limit_eq (x : Int) : limit x = min (max x 0) DEBOUNCECOUNT := by
  unfold limit DEBOUNCECOUNT
  simp only []
  split_ifs <;> omega

theorem limit_range (x : Int) : 0 ≤ limit x ∧ limit x ≤ DEBOUNCECOUNT := by
  unfold limit DEBOUNCECOUNT
  simp only []
  split_ifs <;> omega

theorem weigh1_counter (b : Bool) (s : Statics) (n : Int) (hn : n ≤ 1000) (h : s.Within n) :
    (∀ j, 1 ≤ j → j ≤ 6 → (weigh1 b s).counter j = s.counter j + weight (j == 1) b) ∧
      (weigh1 b s).Within (n + 1) := by
  obtain ⟨c1, c2, c3, c4, c5, c6, pos⟩ := s
  simp only [Statics.Within] at h
  refine ⟨fun j g1 g6 => ?_, ?_⟩
  · interval_cases j <;> cases b <;>
      simp only [weigh1, weight, incr, decr, toShort, Statics.counter, Bool.not_true,
        Bool.not_false, if_true, if_false, Bool.false_eq_true, beq_self_eq_true,
        Nat.reduceBEq] <;> omega
  · cases b <;>
      simp only [weigh1, incr, decr, toShort, Statics.Within, Bool.not_true,
        Bool.not_false, if_true, if_false, Bool.false_eq_true] <;> omega

theorem weigh2_counter (b : Bool) (s : Statics) (n : Int) (hn : n ≤ 1000) (h : s.Within n) :
    (∀ j, 1 ≤ j → j ≤ 6 → (weigh2 b s).counter j = s.counter j + weight (j == 2) b) ∧
      (weigh2 b s).Within (n + 1) := by
  obtain ⟨c1, c2, c3, c4, c5, c6, pos⟩ := s
  simp only [Statics.Within] at h
  refine ⟨fun j g1 g6 => ?_, ?_⟩
  · interval_cases j <;> cases b <;>
      simp only [weigh2, weight, incr, decr, toShort, Statics.counter, Bool.not_true,
        Bool.not_false, if_true, if_false, Bool.false_eq_true, beq_self_eq_true,
        Nat.reduceBEq] <;> omega
  · cases b <;>
      simp only [weigh2, incr, decr, toShort, Statics.Within, Bool.not_true,
        Bool.not_false, if_true, if_false, Bool.false_eq_true] <;> omega

theorem weigh3_counter (b : Bool) (s : Statics) (n : Int) (hn : n ≤ 1000) (h : s.Within n) :
    (∀ j, 1 ≤ j → j ≤ 6 → (weigh3 b s).counter j = s.counter j + weight (j == 3) b) ∧
      (weigh3 b s).Within (n + 1) := by
  obtain ⟨c1, c2, c3, c4, c5, c6, pos⟩ := s
  simp only [Statics.Within] at h
  refine ⟨fun j g1 g6 => ?_, ?_⟩
  · interval_cases j <;> cases b <;>
      simp only [weigh3, weight, incr, decr, toShort, Statics.counter, Bool.not_true,
        Bool.not_false, if_true, if_false, Bool.false_eq_true, beq_self_eq_true,
        Nat.reduceBEq] <;> omega
  · cases b <;>
      simp only [weigh3, incr, decr, toShort, Statics.Within, Bool.not_true,
        Bool.not_false, if_true, if_false, Bool.false_eq_true] <;> omega

theorem weigh4_counter (b : Bool) (s : Statics) (n : Int) (hn : n ≤ 1000) (h : s.Within n) :
    (∀ j, 1 ≤ j → j ≤ 6 → (weigh4 b s).counter j = s.counter j + weight (j == 4) b) ∧
      (weigh4 b s).Within (n + 1) := by
  obtain ⟨c1, c2, c3, c4, c5, c6, pos⟩ := s
  simp only [Statics.Within] at h
  refine ⟨fun j g1 g6 => ?_, ?_⟩
  · interval_cases j <;> cases b <;>
      simp only [weigh4, weight, incr, decr, toShort, Statics.counter, Bool.not_true,
        Bool.not_false, if_true, if_false, Bool.false_eq_true, beq_self_eq_true,
        Nat.reduceBEq] <;> omega
  · cases b <;>
      simp only [weigh4, incr, decr, toShort, Statics.Within, Bool.not_true,
        Bool.not_false, if_true, if_false, Bool.false_eq_true] <;> omega

theorem weigh5_counter (b : Bool) (s : Statics) (n : Int) (hn : n ≤ 1000) (h : s.Within n) :
    (∀ j, 1 ≤ j → j ≤ 6 → (weigh5 b s).counter j = s.counter j + weight (j == 5) b) ∧
      (weigh5 b s).Within (n + 1) := by
  obtain ⟨c1, c2, c3, c4, c5, c6, pos⟩ := s
  simp only [Statics.Within] at h
  refine ⟨fun j g1 g6 => ?_, ?_⟩
  · interval_cases j <;> cases b <;>
      simp only [weigh5, weight, incr, decr, toShort, Statics.counter, Bool.not_true,
        Bool.not_false, if_true, if_false, Bool.false_eq_true, beq_self_eq_true,
        Nat.reduceBEq] <;> omega
  · cases b <;>
      simp only [weigh5, incr, decr, toShort, Statics.Within, Bool.not_true,
        Bool.not_false, if_true, if_false, Bool.false_eq_true] <;> omega

theorem weigh6_counter (b : Bool) (s : Statics) (n : Int) (hn : n ≤ 1000) (h : s.Within n) :
    (∀ j, 1 ≤ j → j ≤ 6 → (weigh6 b s).counter j = s.counter j + weight (j == 6) b) ∧
      (weigh6 b s).Within (n + 1) := by
  obtain ⟨c1, c2, c3, c4, c5, c6, pos⟩ := s
  simp only [Statics.Within] at h
  refine ⟨fun j g1 g6 => ?_, ?_⟩
  · interval_cases j <;> cases b <;>
      simp only [weigh6, weight, incr, decr, toShort, Statics.counter, Bool.not_true,
        Bool.not_false, if_true, if_false, Bool.false_eq_true, beq_self_eq_true,
        Nat.reduceBEq] <;> omega
  · cases b <;>
      simp only [weigh6, incr, decr, toShort, Statics.Within, Bool.not_true,
        Bool.not_false, if_true, if_false, Bool.false_eq_true] <;> omega

theorem weight_sum (p : Pins) (j : Nat) (g1 : 1 ≤ j) (g6 : j ≤ 6) :
    weight (j == 1) p.BUTTON1 + weight (j == 2) p.BUTTON2 + weight (j == 3) p.BUTTON3
      + weight (j == 4) p.BUTTON4 + weight (j == 5) p.BUTTON5 + weight (j == 6) p.BUTTON6
      = p.delta j := by
  obtain ⟨b1, b2, b3, b4, b5, b6⟩ := p
  interval_cases j <;> cases b1 <;> cases b2 <;> cases b3 <;> cases b4 <;> cases b5 <;>
    cases b6 <;> rfl

theorem limited_counter (t : Statics) (n : Nat) (j : Nat) (g1 : 1 ≤ j) (g6 : j ≤ 6) :
    Statics.counter { limitAll t with btnpos := n } j = limit (t.counter j) := by
  interval_cases j <;> rfl

theorem ButtonPos_counter (s : Statics) (hs : s.Bounded) (p : Pins) (i : Nat)
    (h1 : 1 ≤ i) (h6 : i ≤ 6) :
    (ButtonPos s p).2.counter i = limit (s.counter i + p.delta i) := by
  have w0 : s.Within 10 := by
    simp only [Statics.Bounded, DEBOUNCECOUNT] at hs
    simp only [Statics.Within]
    omega
  have e1 := weigh1_counter p.BUTTON1 s _ (by decide) w0
  have e2 := weigh2_counter p.BUTTON2 _ _ (by decide) e1.2
  have e3 := weigh3_counter p.BUTTON3 _ _ (by decide) e2.2
  have e4 := weigh4_counter p.BUTTON4 _ _ (by decide) e3.2
  have e5 := weigh5_counter p.BUTTON5 _ _ (by decide) e4.2
  have e6 := weigh6_counter p.BUTTON6 _ _ (by decide) e5.2
  have hw := weight_sum p i h1 h6
  have k1 := e1.1 i h1 h6
  have k2 := e2.1 i h1 h6
  have k3 := e3.1 i h1 h6
  have k4 := e4.1 i h1 h6
  have k5 := e5.1 i h1 h6
  have k6 := e6.1 i h1 h6
  unfold ButtonPos
  simp only []
  rw [limited_counter _ _ i h1 h6]
  congr 1
  omega

theorem ButtonPos_fst (s : Statics) (p : Pins) : (ButtonPos s p).1 = (ButtonPos s p).2.btnpos := rfl

theorem weigh_btnpos (s : Statics) (p : Pins) :
    (weigh6 p.BUTTON6 (weigh5 p.BUTTON5 (weigh4 p.BUTTON4 (weigh3 p.BUTTON3
      (weigh2 p.BUTTON2 (weigh1 p.BUTTON1 s)))))).btnpos = s.btnpos := by
  obtain ⟨b1, b2, b3, b4, b5, b6⟩ := p
  cases b1 <;> cases b2 <;> cases b3 <;> cases b4 <;> cases b5 <;> cases b6 <;> rfl

theorem scan_of_sat (t : Statics) (j : Nat) (h1 : 1 ≤ j) (h6 : j ≤ 6)
    (hj : t.counter j = DEBOUNCECOUNT)
    (hk : ∀ k, j < k → k ≤ 6 → t.counter k ≠ DEBOUNCECOUNT) : scan t = j := by
  have k2 := hk 2
  have k3 := hk 3
  have k4 := hk 4
  have k5 := hk 5
  have k6 := hk 6
  interval_cases j <;> simp [Statics.counter] at hj k2 k3 k4 k5 k6 <;> simp [scan, *]

theorem scan_of_unsat (t : Statics)
    (h : ∀ j, 1 ≤ j → j ≤ 6 → t.counter j ≠ DEBOUNCECOUNT) : scan t = t.btnpos := by
  have k1 := h 1
  have k2 := h 2
  have k3 := h 3
  have k4 := h 4
  have k5 := h 5
  have k6 := h 6
  simp [Statics.counter] at k1 k2 k3 k4 k5 k6
  simp [scan, *]

theorem scan_range (t : Statics) (h : 1 ≤ t.btnpos ∧ t.btnpos ≤ 6) : 1 ≤ scan t ∧ scan t ≤ 6 := by
  unfold scan
  simp only []
  split_ifs <;> omega

theorem ButtonPos_btnpos_of_sat (s : Statics) (p : Pins) (j : Nat) (h1 : 1 ≤ j) (h6 : j ≤ 6)
    (hj : (ButtonPos s p).2.counter j = DEBOUNCECOUNT)
    (hk : ∀ k, j < k → k ≤ 6 → (ButtonPos s p).2.counter k ≠ DEBOUNCECOUNT) :
    (ButtonPos s p).2.btnpos = j :=
  scan_of_sat _ j h1 h6 hj hk

theorem ButtonPos_btnpos_of_unsat (s : Statics) (p : Pins)
    (h : ∀ j, 1 ≤ j → j ≤ 6 → (ButtonPos s p).2.counter j ≠ DEBOUNCECOUNT) :
    (ButtonPos s p).2.btnpos = s.btnpos := by
  have key := scan_of_unsat (limitAll (weigh6 p.BUTTON6 (weigh5 p.BUTTON5 (weigh4 p.BUTTON4
    (weigh3 p.BUTTON3 (weigh2 p.BUTTON2 (weigh1 p.BUTTON1 s))))))) h
  exact key.trans (weigh_btnpos s p)

theorem ButtonPos_bounded (s : Statics) (p : Pins) : (ButtonPos s p).2.Bounded := by
  simp only [ButtonPos, limitAll, Statics.Bounded]
  exact ⟨limit_range _, limit_range _, limit_range _, limit_range _, limit_range _, limit_range _⟩

theorem ButtonPos_btnpos_range (s : Statics) (p : Pins) (h : 1 ≤ s.btnpos ∧ s.btnpos ≤ 6) :
    1 ≤ (ButtonPos s p).2.btnpos ∧ (ButtonPos s p).2.btnpos ≤ 6 := by
  have key := scan_range (limitAll (weigh6 p.BUTTON6 (weigh5 p.BUTTON5 (weigh4 p.BUTTON4
    (weigh3 p.BUTTON3 (weigh2 p.BUTTON2 (weigh1 p.BUTTON1 s)))))))
    (by rw [show (limitAll _).btnpos = _ from weigh_btnpos s p]; exact h)
  exact key

theorem Bounded_counter (s : Statics) (hs : s.Bounded) (i : Nat) :
    0 ≤ s.counter i ∧ s.counter i ≤ DEBOUNCECOUNT := by
  obtain ⟨h1, h2, h3, h4, h5, h6⟩ := hs
  unfold Statics.counter
  split <;> first | assumption | simp [DEBOUNCECOUNT]

theorem delta_onlyActive_self (i : Nat) (h1 : 1 ≤ i) (h6 : i ≤ 6) : (onlyActive i).delta i = 1 := by
  interval_cases i <;> rfl

theorem delta_onlyActive_other (i j : Nat) (h1 : 1 ≤ i) (h6 : i ≤ 6) (g1 : 1 ≤ j) (g6 : j ≤ 6)
    (hij : j ≠ i) : (onlyActive i).delta j = -2 := by
  interval_cases i <;> interval_cases j <;> first | rfl | exact absurd rfl hij

theorem delta_noneActive (j : Nat) : noneActive.delta j = -1 := by
  have h : noneActive.active j = false := by
    unfold Pins.active
    split <;> rfl
  unfold Pins.delta
  rw [h]
  rfl


/-! ## Sequences of `ButtonPos` calls -/

theorem calls_nil (s : Statics) : calls s [] = s := rfl

theorem calls_cons (s : Statics) (p : Pins) (ps : List Pins) :
    calls s (p :: ps) = calls (ButtonPos s p).2 ps := rfl

theorem calls_append (s : Statics) (ps qs : List Pins) :
    calls s (ps ++ qs) = calls (calls s ps) qs := by
  simp [calls, List.foldl_append]

theorem calls_bounded (s : Statics) (hs : s.Bounded) (ps : List Pins) : (calls s ps).Bounded := by
  induction ps generalizing s with
  | nil => exact hs
  | cons p ps ih => exact ih _ (ButtonPos_bounded s p)

theorem calls_btnpos_range (s : Statics) (hs : 1 ≤ s.btnpos ∧ s.btnpos ≤ 6) (ps : List Pins) :
    1 ≤ (calls s ps).btnpos ∧ (calls s ps).btnpos ≤ 6 := by
  induction ps generalizing s with
  | nil => exact hs
  | cons p ps ih => exact ih _ (ButtonPos_btnpos_range s p hs)

/-- One tick with only switch `i` active: counter `i` goes up by one, the others down by two. -/
theorem press_counter (s : Statics) (hs : s.Bounded) (i j : Nat) (h1 : 1 ≤ i) (h6 : i ≤ 6)
    (g1 : 1 ≤ j) (g6 : j ≤ 6) :
    (ButtonPos s (onlyActive i)).2.counter j =
      if j = i then min (s.counter j + 1) 10 else max (s.counter j - 2) 0 := by
  have hb := Bounded_counter s hs j
  rw [ButtonPos_counter s hs _ j g1 g6, limit_eq]
  simp only [DEBOUNCECOUNT] at hb ⊢
  by_cases hij : j = i
  · subst hij
    rw [delta_onlyActive_self j h1 h6, if_pos rfl]
    omega
  · rw [delta_onlyActive_other i j h1 h6 g1 g6 hij, if_neg hij]
    omega

/-- One tick with no switch active: every counter goes down by one. -/
theorem release_counter (s : Statics) (hs : s.Bounded) (j : Nat) (g1 : 1 ≤ j) (g6 : j ≤ 6) :
    (ButtonPos s noneActive).2.counter j = max (s.counter j - 1) 0 := by
  have hb := Bounded_counter s hs j
  rw [ButtonPos_counter s hs _ j g1 g6, limit_eq, delta_noneActive]
  simp only [DEBOUNCECOUNT] at hb ⊢
  omega

theorem release_btnpos (s : Statics) (hs : s.Bounded) :
    (ButtonPos s noneActive).2.btnpos = s.btnpos := by
  apply ButtonPos_btnpos_of_unsat
  intro j g1 g6
  have hb := Bounded_counter s hs j
  rw [release_counter s hs j g1 g6]
  simp only [DEBOUNCECOUNT] at hb ⊢
  omega

theorem released_btnpos (s : Statics) (hs : s.Bounded) (m : Nat) :
    (calls s (List.replicate m noneActive)).btnpos = s.btnpos := by
  induction m generalizing s with
  | zero => rfl
  | succ m ih =>
    rw [List.replicate_succ, calls_cons, ih _ (ButtonPos_bounded _ _), release_btnpos s hs]

theorem pressed_counter (s : Statics) (hs : s.Bounded) (i j : Nat) (h1 : 1 ≤ i) (h6 : i ≤ 6)
    (g1 : 1 ≤ j) (g6 : j ≤ 6) (n : Nat) :
    (calls s (List.replicate n (onlyActive i))).counter j =
      if j = i then min (s.counter j + n) 10 else max (s.counter j - 2 * n) 0 := by
  induction n generalizing s with
  | zero =>
    have hb := Bounded_counter s hs j
    simp only [DEBOUNCECOUNT] at hb
    simp only [List.replicate_zero, calls_nil]
    split_ifs <;> omega
  | succ n ih =>
    rw [List.replicate_succ, calls_cons, ih _ (ButtonPos_bounded _ _), press_counter s hs i j h1 h6 g1 g6]
    have hb := Bounded_counter s hs j
    simp only [DEBOUNCECOUNT] at hb
    push_cast
    split_ifs <;> omega

/-- Ten ticks with only switch `i` active select position `i`. -/
theorem pressed_btnpos (s : Statics) (hs : s.Bounded) (i : Nat) (h1 : 1 ≤ i) (h6 : i ≤ 6) :
    (calls s (List.replicate 10 (onlyActive i))).btnpos = i := by
  have e : List.replicate 10 (onlyActive i) = List.replicate 9 (onlyActive i) ++ [onlyActive i] :=
    List.replicate_succ' _ _
  have hc : ∀ j, 1 ≤ j → j ≤ 6 → (calls s (List.replicate 10 (onlyActive i))).counter j =
      if j = i then 10 else 0 := by
    intro j g1 g6
    have hb := Bounded_counter s hs j
    simp only [DEBOUNCECOUNT] at hb
    rw [pressed_counter s hs i j h1 h6 g1 g6]
    push_cast
    split_ifs <;> omega
  rw [e, calls_append, calls_cons, calls_nil] at hc ⊢
  apply ButtonPos_btnpos_of_sat _ _ i h1 h6
  · rw [hc i h1 h6, if_pos rfl]; rfl
  · intro k hk k6
    rw [hc k (by omega) k6, if_neg (by omega)]
    decide

/-- A press shorter than ten ticks from a zero counter, then a release, keeps `btnpos`. -/
theorem short_press_btnpos (s : Statics) (hs : s.Bounded) (i : Nat) (h1 : 1 ≤ i) (h6 : i ≤ 6)
    (h0 : s.counter i = 0) (n : Nat) (hn : n < 10) (m : Nat) :
    (calls s (pressThenRelease i n m)).btnpos = s.btnpos := by
  unfold pressThenRelease
  rw [calls_append, released_btnpos _ (calls_bounded s hs _)]
  clear m
  induction n with
  | zero => rfl
  | succ n ih =>
    rw [List.replicate_succ', calls_append, calls_cons, calls_nil]
    rw [← ih (by omega)]
    apply ButtonPos_btnpos_of_unsat
    intro j g1 g6
    have hb := calls_bounded s hs (List.replicate n (onlyActive i))
    have hc := pressed_counter s hs i j h1 h6 g1 g6 n
    have hj := Bounded_counter s hs j
    rw [press_counter _ hb i j h1 h6 g1 g6, hc]
    simp only [DEBOUNCECOUNT] at hj ⊢
    by_cases hij : j = i
    · subst hij
      rw [if_pos rfl, if_pos rfl, h0]
      omega
    · rw [if_neg hij, if_neg hij]
      omega

theorem take_pressThenRelease (i n m k : Nat) :
    (pressThenRelease i n m).take k = pressThenRelease i (min k n) (min (k - n) m) := by
  unfold pressThenRelease
  rw [List.take_append_eq_append_take, List.take_replicate, List.take_replicate,
    List.length_replicate]

/-! ## The tick dispatcher -/

theorem run_nil (d : Device) : run d [] = d := rfl

theorem run_cons (d : Device) (p : Pins) (ps : List Pins) :
    run d (p :: ps) = run (Timer3_ISR d p) ps := rfl

theorem run_append (d : Device) (ps qs : List Pins) : run d (ps ++ qs) = run (run d ps) qs := by
  simp [run, List.foldl_append]

theorem outputSwitch_statics (v : Nat) (d : Device) : (outputSwitch v d).statics = d.statics := by
  unfold outputSwitch
  split <;> rfl

theorem outputSwitch_appState (v : Nat) (d : Device) : (outputSwitch v d).appState = d.appState := by
  unfold outputSwitch
  split <;> rfl

theorem outputSwitch_valid (v : Nat) (d : Device) (h1 : 1 ≤ v) (h6 : v ≤ 6) :
    (outputSwitch v d).onlyLit v ∧ (outputSwitch v d).IDA0 = (v - 1) * DACSTEP := by
  interval_cases v <;> refine ⟨?_, rfl⟩ <;> intro j g1 g6 <;> interval_cases j <;>
    simp [outputSwitch, setLEDs, Device.led]

theorem outputSwitch_default (v : Nat) (d : Device) (h : ¬ (2 ≤ v ∧ v ≤ 6)) :
    (outputSwitch v d).onlyLit 1 ∧ (outputSwitch v d).IDA0 = 0 := by
  have e : outputSwitch v d = { setLEDs d true false false false false false with IDA0 := 0 } := by
    unfold outputSwitch
    split <;> first | rfl | omega
  rw [e]
  refine ⟨?_, rfl⟩
  intro j g1 g6
  interval_cases j <;> simp [setLEDs, Device.led]

theorem Timer3_ISR_steady (d : Device) (p : Pins) (h : Steady d) :
    Timer3_ISR d p =
      outputSwitch (ButtonPos d.statics p).1 { d with statics := (ButtonPos d.statics p).2 } := by
  unfold Timer3_ISR
  rw [if_neg h]

theorem Timer3_ISR_animation (d : Device) (p : Pins) (h : ¬ Steady d) :
    Timer3_ISR d p = StartupAnimation d := by
  unfold Timer3_ISR
  rw [if_pos (not_not.mp h)]

theorem setLEDs_frame (d : Device) (a b c e f g : Bool) :
    (setLEDs d a b c e f g).statics = d.statics ∧ (setLEDs d a b c e f g).IDA0 = d.IDA0 ∧
      (setLEDs d a b c e f g).appState = d.appState := ⟨rfl, rfl, rfl⟩

theorem sweep_frame (d : Device) (l : Nat) :
    (sweep d l).statics = d.statics ∧ (sweep d l).IDA0 = d.IDA0 ∧
      (sweep d l).appState = d.appState := by
  unfold sweep
  repeat' split
  all_goals exact setLEDs_frame _ _ _ _ _ _ _

theorem StartupAnimation_eq (d : Device) :
    StartupAnimation d =
      if usub ((d.appState + 1) % 65536) 1 < STARTUPANIMSTEP then
        setLEDs { d with appState := (d.appState + 1) % 65536 } true false false false false false
      else sweep { d with appState := (d.appState + 1) % 65536 }
        (usub (usub ((d.appState + 1) % 65536) 1) STARTUPANIMSTEP % (10 * STARTUPANIMSTEP)) := by
  unfold StartupAnimation
  rfl

theorem StartupAnimation_frame (d : Device) :
    (StartupAnimation d).statics = d.statics ∧ (StartupAnimation d).IDA0 = d.IDA0 ∧
      (StartupAnimation d).appState = (d.appState + 1) % 65536 := by
  rw [StartupAnimation_eq]
  split
  · exact setLEDs_frame _ _ _ _ _ _ _
  · exact sweep_frame _ _

/-- Which LED each range test of the cascade lights. -/
theorem sweep_onlyLit (d : Device) (l : Nat) (h : l < 10 * STARTUPANIMSTEP) :
    (sweep d l).onlyLit (sweepOrder.getD (l / STARTUPANIMSTEP) 0) := by
  simp only [STARTUPANIMSTEP] at h
  have hb : l / 50 < 10 := by omega
  unfold sweep
  simp only [STARTUPANIMSTEP]
  generalize hk : l / 50 = k at *
  interval_cases k <;> (repeat rw [if_neg (by omega)]) <;> rw [if_pos (by omega)] <;>
    intro j g1 g6 <;> interval_cases j <;> simp [setLEDs, Device.led, sweepOrder]

theorem Timer3_ISR_steady_statics (d : Device) (p : Pins) (h : Steady d) :
    (Timer3_ISR d p).statics = (ButtonPos d.statics p).2 ∧ Steady (Timer3_ISR d p) := by
  rw [Timer3_ISR_steady d p h]
  refine ⟨outputSwitch_statics _ _, ?_⟩
  unfold Steady
  rw [outputSwitch_appState]
  exact h

theorem run_steady (d : Device) (h : Steady d) (ps : List Pins) :
    (run d ps).statics = calls d.statics ps ∧ Steady (run d ps) := by
  induction ps generalizing d with
  | nil => exact ⟨rfl, h⟩
  | cons p ps ih =>
    have hp := Timer3_ISR_steady_statics d p h
    rw [run_cons, calls_cons, ← hp.1]
    exact ih _ hp.2

theorem bootStatics_valid : bootStatics.Valid := by
  simp [Statics.Valid, Statics.Bounded, bootStatics, DEBOUNCECOUNT]

theorem Timer3_ISR_valid (d : Device) (p : Pins) (h : d.statics.Valid) :
    (Timer3_ISR d p).statics.Valid := by
  by_cases hs : Steady d
  · rw [(Timer3_ISR_steady_statics d p hs).1]
    exact ⟨ButtonPos_bounded _ _, ButtonPos_btnpos_range _ _ h.2⟩
  · rw [Timer3_ISR_animation d p hs, (StartupAnimation_frame d).1]
    exact h

theorem run_valid (d : Device) (h : d.statics.Valid) (ps : List Pins) :
    (run d ps).statics.Valid := by
  induction ps generalizing d with
  | nil => exact h
  | cons p ps ih => exact ih _ (Timer3_ISR_valid d p h)

theorem Reachable.valid {d : Device} (h : Reachable d) : d.statics.Valid := by
  obtain ⟨ps, rfl⟩ := h
  exact run_valid boot bootStatics_valid ps

/-- After at least one steady-state tick the LEDs and the DAC show the stored position. -/
theorem run_steady_output (d : Device) (h : Steady d) (hv : d.statics.Valid) (ps : List Pins)
    (hne : ps ≠ []) :
    (run d ps).onlyLit (run d ps).statics.btnpos ∧
      (run d ps).IDA0 = ((run d ps).statics.btnpos - 1) * DACSTEP := by
  obtain ⟨qs, p, rfl⟩ := List.eq_nil_or_concat ps |>.resolve_left hne
  have hq := run_steady d h qs
  have hqv := run_valid d hv qs
  rw [List.concat_eq_append, run_append, run_cons, run_nil, Timer3_ISR_steady _ p hq.2,
    outputSwitch_statics]
  have hr := ButtonPos_btnpos_range _ p hqv.2
  exact outputSwitch_valid _ _ hr.1 hr.2

/-- While the animation runs the tick counter counts ticks and nothing else but the LEDs changes. -/
theorem run_animation (d : Device) (ps : List Pins)
    (h : d.appState + ps.length ≤ 10 * STARTUPANIMSTEP * ANIMATIONCOUNT + STARTUPANIMSTEP) :
    (run d ps).appState = d.appState + ps.length ∧ (run d ps).statics = d.statics ∧
      (run d ps).IDA0 = d.IDA0 := by
  induction ps generalizing d with
  | nil => exact ⟨rfl, rfl, rfl⟩
  | cons p ps ih =>
    simp only [List.length_cons, STARTUPANIMSTEP, ANIMATIONCOUNT] at h
    have hs : ¬ Steady d := by
      unfold Steady
      simp only [STARTUPANIMSTEP, ANIMATIONCOUNT]
      omega
    have hf := StartupAnimation_frame d
    have ha : (StartupAnimation d).appState = d.appState + 1 := by
      rw [hf.2.2]
      omega
    have := ih (StartupAnimation d) (by simp only [STARTUPANIMSTEP, ANIMATIONCOUNT]; omega)
    rw [run_cons, Timer3_ISR_animation d p hs, this.1, this.2.1, this.2.2, hf.1, hf.2.1, ha,
      List.length_cons]
    exact ⟨by omega, rfl, rfl⟩

theorem settled_reachable : Reachable settled := ⟨_, rfl⟩

theorem settled_facts : settled.appState = 2050 ∧ settled.statics = bootStatics := by
  have h := run_animation boot (List.replicate 2050 noneActive)
    (by rw [List.length_replicate]; decide)
  rw [List.length_replicate] at h
  exact ⟨h.1, h.2.1⟩

theorem settled_steady : Steady settled := by
  unfold Steady
  rw [settled_facts.1]
  decide

/-- A pin sample on which switch `i` is the only active switch is `onlyActive i`. -/
theorem eq_onlyActive (p : Pins) (i : Nat) (h1 : 1 ≤ i) (h6 : i ≤ 6)
    (h : ∀ j, 1 ≤ j → j ≤ 6 → (p.active j = true ↔ j = i)) : p = onlyActive i := by
  obtain ⟨b1, b2, b3, b4, b5, b6⟩ := p
  have k1 := h 1 (by decide) (by decide)
  have k2 := h 2 (by decide) (by decide)
  have k3 := h 3 (by decide) (by decide)
  have k4 := h 4 (by decide) (by decide)
  have k5 := h 5 (by decide) (by decide)
  have k6 := h 6 (by decide) (by decide)
  interval_cases i <;> simp [Pins.active] at k1 k2 k3 k4 k5 k6 <;> simp [onlyActive, *]

theorem onlyActive_active (i j : Nat) (h1 : 1 ≤ i) (h6 : i ≤ 6) (g1 : 1 ≤ j) (g6 : j ≤ 6) :
    (onlyActive i).active j = true ↔ j = i := by
  interval_cases i <;> interval_cases j <;> decide

theorem ButtonPos_boot_bothActive (i j : Nat) (h1 : 1 ≤ i) (hij : i < j) (h6 : j ≤ 6) :
    (ButtonPos bootStatics (bothActive i j)).2 = bootStatics := by
  have hi : i ≤ 5 := by omega
  interval_cases i <;> interval_cases j <;> first | omega | rfl

theorem calls_boot_bothActive (i j : Nat) (h1 : 1 ≤ i) (hij : i < j) (h6 : j ≤ 6) (n : Nat) :
    calls bootStatics (List.replicate n (bothActive i j)) = bootStatics := by
  induction n with
  | zero => rfl
  | succ n ih =>
    rw [List.replicate_succ, calls_cons, ButtonPos_boot_bothActive i j h1 hij h6, ih]

theorem usub_one (t : Nat) (h : t < 65535) : usub ((t + 1) % 65536) 1 = t := by
  unfold usub
  omega

theorem usub_step (t : Nat) (h1 : STARTUPANIMSTEP ≤ t) (h : t < 65536) :
    usub t STARTUPANIMSTEP = t - STARTUPANIMSTEP := by
  unfold usub
  simp only [STARTUPANIMSTEP] at h1 ⊢
  omega

/-- The LED lit by an animation tick past the hold phase. -/
theorem Timer3_ISR_sweep (d : Device) (p : Pins) (h1 : STARTUPANIMSTEP ≤ d.appState)
    (h2 : d.appState < 10 * STARTUPANIMSTEP * ANIMATIONCOUNT + STARTUPANIMSTEP) :
    (Timer3_ISR d p).onlyLit
      (sweepOrder.getD ((d.appState - STARTUPANIMSTEP) % (10 * STARTUPANIMSTEP) / STARTUPANIMSTEP) 0) := by
  have hs : ¬ Steady d := not_not.mpr h2
  have h3 : d.appState < 65535 := by
    simp only [STARTUPANIMSTEP, ANIMATIONCOUNT] at h2
    omega
  rw [Timer3_ISR_animation d p hs, StartupAnimation_eq, usub_one _ h3,
    if_neg (Nat.not_lt.mpr h1), usub_step _ h1 (by omega)]
  exact sweep_onlyLit _ _ (Nat.mod_lt _ (by decide))

theorem animation_appState (n : Nat)
    (h : n ≤ 10 * STARTUPANIMSTEP * ANIMATIONCOUNT + STARTUPANIMSTEP) :
    (run boot (List.replicate n noneActive)).appState = n := by
  have e := (run_animation boot (List.replicate n noneActive)
    (by rw [List.length_replicate]; simpa [boot] using h)).1
  rw [List.length_replicate] at e
  simpa [boot] using e

theorem delta_le_one (p : Pins) (i : Nat) (h1 : 1 ≤ i) (h6 : i ≤ 6) : p.delta i ≤ 1 := by
  obtain ⟨b1, b2, b3, b4, b5, b6⟩ := p
  interval_cases i <;> cases b1 <;> cases b2 <;> cases b3 <;> cases b4 <;> cases b5 <;>
    cases b6 <;> decide

theorem delta_eq_one (p : Pins) (i : Nat) (h1 : 1 ≤ i) (h6 : i ≤ 6) (h : p.delta i = 1) :
    p = onlyActive i := by
  obtain ⟨b1, b2, b3, b4, b5, b6⟩ := p
  revert h
  interval_cases i <;> cases b1 <;> cases b2 <;> cases b3 <;> cases b4 <;> cases b5 <;>
    cases b6 <;> decide

/-- A counter rises by at most one per tick, and only on a tick on which it gains a full step. -/
theorem calls_counter_le (s : Statics) (hs : s.Bounded) (i : Nat) (h1 : 1 ≤ i) (h6 : i ≤ 6)
    (ps : List Pins) :
    (calls s ps).counter i ≤ s.counter i + (ps.countP (fun p => decide (p.delta i = 1)) : Nat) := by
  induction ps generalizing s with
  | nil => simp [calls_nil]
  | cons p ps ih =>
    have ih2 := ih _ (ButtonPos_bounded s p)
    have hc := ButtonPos_counter s hs p i h1 h6
    have hd := delta_le_one p i h1 h6
    have hb := Bounded_counter s hs i
    rw [limit_eq] at hc
    simp only [DEBOUNCECOUNT] at hb hc
    rw [calls_cons, List.countP_cons]
    by_cases h : p.delta i = 1
    · simp only [h, decide_True, if_true] at hc ⊢
      push_cast
      omega
    · simp only [h, decide_False, Bool.false_eq_true, if_false] at hc ⊢
      omega

/-- Only an uninterrupted sole press brings a counter from 0 to the limit within ten ticks. -/
theorem sole_press_necessary (i : Nat) (h1 : 1 ≤ i) (h6 : i ≤ 6) (s : Statics) (hs : s.Bounded)
    (h0 : s.counter i = 0) (ps : List Pins) (hlen : ps.length = 10)
    (h : (calls s ps).counter i = DEBOUNCECOUNT) : ∀ p ∈ ps, p = onlyActive i := by
  have hle := calls_counter_le s hs i h1 h6 ps
  have hcl : ps.countP (fun p => decide (p.delta i = 1)) ≤ ps.length :=
    List.countP_le_length _
  rw [h, h0] at hle
  simp only [DEBOUNCECOUNT] at hle
  have e : ps.countP (fun p => decide (p.delta i = 1)) = ps.length := by omega
  intro p hp
  have := List.countP_eq_length.mp e p hp
  exact delta_eq_one p i h1 h6 (of_decide_eq_true this)

/-! ## The weighing lines and the unique winner -/

theorem weighAll_counter (s : Statics) (hs : s.Bounded) (p : Pins) (i : Nat)
    (h1 : 1 ≤ i) (h6 : i ≤ 6) :
    (weighAll s p).counter i = s.counter i + p.delta i := by
  have w0 : s.Within 10 := by
    simp only [Statics.Bounded, DEBOUNCECOUNT] at hs
    simp only [Statics.Within]
    omega
  have e1 := weigh1_counter p.BUTTON1 s _ (by decide) w0
  have e2 := weigh2_counter p.BUTTON2 _ _ (by decide) e1.2
  have e3 := weigh3_counter p.BUTTON3 _ _ (by decide) e2.2
  have e4 := weigh4_counter p.BUTTON4 _ _ (by decide) e3.2
  have e5 := weigh5_counter p.BUTTON5 _ _ (by decide) e4.2
  have e6 := weigh6_counter p.BUTTON6 _ _ (by decide) e5.2
  have hw := weight_sum p i h1 h6
  have k1 := e1.1 i h1 h6
  have k2 := e2.1 i h1 h6
  have k3 := e3.1 i h1 h6
  have k4 := e4.1 i h1 h6
  have k5 := e5.1 i h1 h6
  have k6 := e6.1 i h1 h6
  unfold weighAll
  omega

theorem ButtonPos_weighAll (s : Statics) (p : Pins) (i : Nat) (h1 : 1 ≤ i) (h6 : i ≤ 6) :
    (ButtonPos s p).2.counter i = limit ((weighAll s p).counter i) :=
  limited_counter _ _ i h1 h6

theorem weight_pair (a b x : Bool) (h : ¬ (a = true ∧ b = true)) :
    weight a x + weight b x ≤ 0 := by
  revert h
  cases a <;> cases b <;> cases x <;> decide

/-- Two different counters never gain together. -/
theorem delta_pair_le (p : Pins) (i j : Nat) (h1 : 1 ≤ i) (h6 : i ≤ 6) (g1 : 1 ≤ j) (g6 : j ≤ 6)
    (hij : i ≠ j) : p.delta i + p.delta j ≤ 0 := by
  rw [← weight_sum p i h1 h6, ← weight_sum p j g1 g6]
  have q1 := weight_pair (i == 1) (j == 1) p.BUTTON1 (by simp only [beq_iff_eq]; omega)
  have q2 := weight_pair (i == 2) (j == 2) p.BUTTON2 (by simp only [beq_iff_eq]; omega)
  have q3 := weight_pair (i == 3) (j == 3) p.BUTTON3 (by simp only [beq_iff_eq]; omega)
  have q4 := weight_pair (i == 4) (j == 4) p.BUTTON4 (by simp only [beq_iff_eq]; omega)
  have q5 := weight_pair (i == 5) (j == 5) p.BUTTON5 (by simp only [beq_iff_eq]; omega)
  have q6 := weight_pair (i == 6) (j == 6) p.BUTTON6 (by simp only [beq_iff_eq]; omega)
  omega

/-- A counter at the limit after a call was fed by a change of at least `10 - c`. -/
theorem saturated_after (s : Statics) (hs : s.Bounded) (p : Pins) (i : Nat) (h1 : 1 ≤ i)
    (h6 : i ≤ 6) (h : (ButtonPos s p).2.counter i = DEBOUNCECOUNT) :
    10 ≤ s.counter i + p.delta i := by
  rw [ButtonPos_counter s hs p i h1 h6, limit_eq] at h
  simp only [DEBOUNCECOUNT] at h
  omega

theorem ButtonPos_two_saturated (s : Statics) (hs : s.Bounded) (hu : s.UniqueWinner) (p : Pins)
    (i j : Nat) (h1 : 1 ≤ i) (h6 : i ≤ 6) (g1 : 1 ≤ j) (g6 : j ≤ 6)
    (hi : (ButtonPos s p).2.counter i = DEBOUNCECOUNT)
    (hj : (ButtonPos s p).2.counter j = DEBOUNCECOUNT) : i = j := by
  by_contra hij
  have si := saturated_after s hs p i h1 h6 hi
  have sj := saturated_after s hs p j g1 g6 hj
  have bi := Bounded_counter s hs i
  have bj := Bounded_counter s hs j
  have hp := delta_pair_le p i j h1 h6 g1 g6 hij
  simp only [DEBOUNCECOUNT] at bi bj
  exact hij (hu.1 i j h1 h6 g1 g6 (by simp only [DEBOUNCECOUNT]; omega)
    (by simp only [DEBOUNCECOUNT]; omega))

theorem ButtonPos_unique (s : Statics) (hs : s.Bounded) (hu : s.UniqueWinner) (p : Pins) :
    (ButtonPos s p).2.UniqueWinner := by
  refine ⟨fun i j h1 h6 g1 g6 hi hj => ButtonPos_two_saturated s hs hu p i j h1 h6 g1 g6 hi hj,
    fun i h1 h6 hi => ?_⟩
  apply ButtonPos_btnpos_of_sat s p i h1 h6 hi
  intro k hk k6 hck
  have := ButtonPos_two_saturated s hs hu p i k h1 h6 (by omega) k6 hi hck
  omega

theorem bootStatics_unique : bootStatics.UniqueWinner := by
  have h0 : ∀ i, 1 ≤ i → i ≤ 6 → bootStatics.counter i ≠ DEBOUNCECOUNT := by
    intro i h1 h6
    interval_cases i <;> decide
  exact ⟨fun i j h1 h6 _ _ hi _ => absurd hi (h0 i h1 h6),
    fun i h1 h6 hi => absurd hi (h0 i h1 h6)⟩

theorem calls_unique (s : Statics) (hs : s.Bounded) (hu : s.UniqueWinner) (ps : List Pins) :
    (calls s ps).UniqueWinner := by
  induction ps generalizing s with
  | nil => exact hu
  | cons p ps ih => exact ih _ (ButtonPos_bounded s p) (ButtonPos_unique s hs hu p)

theorem delta_multi (p : Pins) (hk : 2 ≤ p.numActive) (i : Nat) : p.delta i ≤ 0 := by
  unfold Pins.delta
  split <;> omega

/-- With two or more switches active no counter rises and the stored position stays. -/
theorem multi_press (s : Statics) (hs : s.Bounded) (hu : s.UniqueWinner) (p : Pins)
    (hk : 2 ≤ p.numActive) :
    (∀ i, 1 ≤ i → i ≤ 6 → (ButtonPos s p).2.counter i ≤ s.counter i) ∧
      (ButtonPos s p).2.btnpos = s.btnpos := by
  have hle : ∀ i, 1 ≤ i → i ≤ 6 → (ButtonPos s p).2.counter i ≤ s.counter i := by
    intro i h1 h6
    have hb := Bounded_counter s hs i
    have hd := delta_multi p hk i
    rw [ButtonPos_counter s hs p i h1 h6, limit_eq]
    simp only [DEBOUNCECOUNT] at hb ⊢
    omega
  refine ⟨hle, ?_⟩
  by_cases h : ∀ j, 1 ≤ j → j ≤ 6 → (ButtonPos s p).2.counter j ≠ DEBOUNCECOUNT
  · exact ButtonPos_btnpos_of_unsat s p h
  · push_neg at h
    obtain ⟨j, g1, g6, hj⟩ := h
    have hb := Bounded_counter s hs j
    have hl := hle j g1 g6
    rw [hj] at hl
    have hold : s.counter j = DEBOUNCECOUNT := le_antisymm hb.2 hl
    rw [(ButtonPos_unique s hs hu p).2 j g1 g6 hj, hu.2 j g1 g6 hold]

/-! ## Ticks counted from boot -/

theorem ticks_succ (f : Nat → Pins) (n : Nat) :
    ticks f (n + 1) = Timer3_ISR (ticks f n) (f n) := by
  unfold ticks
  rw [List.range_succ, List.map_append, run_append]
  rfl

theorem Timer3_ISR_appState_animation (d : Device) (p : Pins) (h : ¬ Steady d) :
    (Timer3_ISR d p).appState = d.appState + 1 := by
  rw [Timer3_ISR_animation d p h, (StartupAnimation_frame d).2.2]
  unfold Steady at h
  simp only [STARTUPANIMSTEP, ANIMATIONCOUNT] at h
  omega

theorem Timer3_ISR_appState_steady (d : Device) (p : Pins) (h : Steady d) :
    (Timer3_ISR d p).appState = d.appState := by
  rw [Timer3_ISR_steady d p h, outputSwitch_appState]

theorem ticks_appState (f : Nat → Pins) (n : Nat) : (ticks f n).appState = min n 2050 := by
  induction n with
  | zero => rfl
  | succ n ih =>
    rw [ticks_succ]
    by_cases h : Steady (ticks f n)
    · rw [Timer3_ISR_appState_steady _ _ h, ih]
      unfold Steady at h
      rw [ih] at h
      simp only [STARTUPANIMSTEP, ANIMATIONCOUNT] at h
      omega
    · rw [Timer3_ISR_appState_animation _ _ h, ih]
      unfold Steady at h
      rw [ih] at h
      simp only [STARTUPANIMSTEP, ANIMATIONCOUNT] at h
      omega

theorem ticks_steady_iff (f : Nat → Pins) (k : Nat) : Steady (ticks f k) ↔ 2050 ≤ k := by
  unfold Steady
  rw [ticks_appState]
  simp only [STARTUPANIMSTEP, ANIMATIONCOUNT]
  omega

theorem ticks_animation (f : Nat → Pins) (n : Nat) (h : n ≤ 2050) :
    (ticks f n).statics = bootStatics ∧ (ticks f n).IDA0 = 0 := by
  have key := run_animation boot ((List.range n).map f)
    (by
      rw [List.length_map, List.length_range]
      simp only [STARTUPANIMSTEP, ANIMATIONCOUNT]
      show 0 + n ≤ _
      omega)
  exact ⟨key.2.1, key.2.2⟩

theorem ticks_valid (f : Nat → Pins) (n : Nat) : (ticks f n).statics.Valid :=
  run_valid boot bootStatics_valid _

/-- The readings of the animation ticks do not enter the state. -/
theorem ticks_congr (f g : Nat → Pins) (h : ∀ k, 2050 ≤ k → f k = g k) (n : Nat) :
    ticks f n = ticks g n := by
  induction n with
  | zero => rfl
  | succ n ih =>
    rw [ticks_succ, ticks_succ, ih]
    by_cases hs : Steady (ticks g n)
    · rw [h n ((ticks_steady_iff g n).mp hs)]
    · rw [Timer3_ISR_animation _ _ hs, Timer3_ISR_animation _ _ hs]

/-- A pin sample without an active switch is `noneActive`. -/
theorem eq_noneActive (p : Pins) (h : ∀ j, 1 ≤ j → j ≤ 6 → p.active j = false) :
    p = noneActive := by
  obtain ⟨b1, b2, b3, b4, b5, b6⟩ := p
  have k1 := h 1 (by decide) (by decide)
  have k2 := h 2 (by decide) (by decide)
  have k3 := h 3 (by decide) (by decide)
  have k4 := h 4 (by decide) (by decide)
  have k5 := h 5 (by decide) (by decide)
  have k6 := h 6 (by decide) (by decide)
  simp [Pins.active] at k1 k2 k3 k4 k5 k6
  simp [noneActive, *]

/-- With no switch ever active the resolver keeps its boot statics. -/
theorem ticks_idle_statics (f : Nat → Pins) (hf : ∀ k, f k = noneActive) (n : Nat) :
    (ticks f n).statics.btnpos = 1 := by
  induction n with
  | zero => rfl
  | succ n ih =>
    rw [ticks_succ]
    by_cases hs : Steady (ticks f n)
    · rw [(Timer3_ISR_steady_statics _ _ hs).1, hf n, release_btnpos _ (ticks_valid f n).1, ih]
    · rw [Timer3_ISR_animation _ _ hs, (StartupAnimation_frame _).1, ih]

/-! ## The closed form of the animation -/

theorem StartupAnimation_hold_lit (d : Device) (h : d.appState < STARTUPANIMSTEP) :
    (StartupAnimation d).onlyLit 1 := by
  have h3 : d.appState < 65535 := by
    simp only [STARTUPANIMSTEP] at h
    omega
  rw [StartupAnimation_eq, usub_one _ h3, if_pos h]
  intro j g1 g6
  interval_cases j <;> simp [setLEDs, Device.led]

theorem animationLed_hold (t : Nat) (h : t < STARTUPANIMSTEP) : animationLed t = 1 := by
  unfold animationLed
  simp only [STARTUPANIMSTEP] at h ⊢
  have e : t / 50 % 10 = 0 := by omega
  rw [e]
  rfl

theorem animationLed_last (t : Nat) (h1 : 2000 ≤ t) (h2 : t < 2050) : animationLed t = 1 := by
  unfold animationLed
  simp only [STARTUPANIMSTEP]
  have e : t / 50 % 10 = 0 := by omega
  rw [e]
  rfl

theorem sweep_closed (t : Nat) (h1 : STARTUPANIMSTEP ≤ t) :
    sweepOrder.getD ((t - STARTUPANIMSTEP) % (10 * STARTUPANIMSTEP) / STARTUPANIMSTEP) 0
      = animationLed t := by
  unfold animationLed
  simp only [STARTUPANIMSTEP] at h1 ⊢
  have hb : (t - 50) % 500 / 50 < 10 := by omega
  have e : t / 50 % 10 = ((t - 50) % 500 / 50 + 1) % 10 := by omega
  rw [e]
  generalize (t - 50) % 500 / 50 = b at hb
  interval_cases b <;> rfl

theorem animationLed_range (t : Nat) : 1 ≤ animationLed t ∧ animationLed t ≤ 6 := by
  unfold animationLed
  have hb : t / STARTUPANIMSTEP % 10 < 10 := Nat.mod_lt _ (by decide)
  generalize t / STARTUPANIMSTEP % 10 = b at hb
  interval_cases b <;> decide

/-- Every animation tick lights the LED of the closed form. -/
theorem StartupAnimation_closed (d : Device)
    (h : d.appState < 10 * STARTUPANIMSTEP * ANIMATIONCOUNT + STARTUPANIMSTEP) :
    (StartupAnimation d).onlyLit (animationLed d.appState) := by
  by_cases h50 : d.appState < STARTUPANIMSTEP
  · rw [animationLed_hold _ h50]
    exact StartupAnimation_hold_lit d h50
  · have key := Timer3_ISR_sweep d noneActive (Nat.not_lt.mp h50) h
    rw [sweep_closed _ (Nat.not_lt.mp h50), Timer3_ISR_animation d noneActive (not_not.mpr h)] at key
    exact key

theorem noneActive_active (j : Nat) : noneActive.active j = false := by
  unfold Pins.active
  split <;> rfl

/-- An animation tick overwrites all six LEDs: the LEDs after it do not depend on those before. -/
theorem Timer3_ISR_animation_led (d : Device) (p : Pins)
    (h : d.appState < 10 * STARTUPANIMSTEP * ANIMATIONCOUNT + STARTUPANIMSTEP)
    (a b c e f g : Bool) (j : Nat) (g1 : 1 ≤ j) (g6 : j ≤ 6) :
    (Timer3_ISR (setLEDs d a b c e f g) p).led j = (Timer3_ISR d p).led j := by
  have k1 := StartupAnimation_closed d h
  have k2 := StartupAnimation_closed (setLEDs d a b c e f g) h
  rw [Timer3_ISR_animation _ p (not_not.mpr h),
    Timer3_ISR_animation (setLEDs d a b c e f g) p (not_not.mpr h)]
  have e1 := k1 j g1 g6
  have e2 := k2 j g1 g6
  rw [show (setLEDs d a b c e f g).appState = d.appState from rfl] at e2
  rw [Bool.eq_iff_iff, e1, e2]

theorem run_steady_latch (d : Device) (h : Steady d) (ps : List Pins) : Steady (run d ps) :=
  (run_steady d h ps).2

theorem outputSwitch_codes (d : Device) :
    (outputSwitch 1 d).IDA0 = 0 ∧ (outputSwitch 2 d).IDA0 = 3276 ∧
      (outputSwitch 3 d).IDA0 = 6552 ∧ (outputSwitch 4 d).IDA0 = 9828 ∧
      (outputSwitch 5 d).IDA0 = 13104 ∧ (outputSwitch 6 d).IDA0 = 16380 :=
  ⟨rfl, rfl, rfl, rfl, rfl, rfl⟩

/-- The statics of the device are those of the resolver fed with the readings of the
steady-state ticks. -/
theorem run_unique (ps : List Pins) : (run boot ps).statics.UniqueWinner := by
  have key : ∀ (qs : List Pins) (d : Device), d.statics.Bounded → d.statics.UniqueWinner →
      (run d qs).statics.UniqueWinner := by
    intro qs
    induction qs with
    | nil => exact fun d _ hu => hu
    | cons q qs ih =>
      intro d hb hu
      rw [run_cons]
      by_cases hs : Steady d
      · have e := (Timer3_ISR_steady_statics d q hs).1
        exact ih _ (by rw [e]; exact ButtonPos_bounded _ _)
          (by rw [e]; exact ButtonPos_unique _ hb hu q)
      · have e : (Timer3_ISR d q).statics = d.statics := by
          rw [Timer3_ISR_animation d q hs, (StartupAnimation_frame d).1]
        exact ih _ (by rw [e]; exact hb) (by rw [e]; exact hu)
  exact key ps boot bootStatics_valid.1 bootStatics_unique

/-! ## Claims -/

/-- **C1** (end-to-end scenario B). For every position `i` in 1..6 and every steady-state state
reachable from boot, ten consecutive ticks on which switch `i` is the only active switch, followed
by any number `m` (also `m = 0`) of ticks on which no switch is active, end with `btnpos = i`,
exactly LED `i` lit and analog code `(i - 1) * DACSTEP`. -/
theorem scenario_B_select_and_hold (i : Nat) (h1 : 1 ≤ i) (h6 : i ≤ 6) (d : Device)
    (hr : Reachable d) (hs : Steady d) (m : Nat) :
    (run d (pressThenRelease i 10 m)).statics.btnpos = i ∧
      (run d (pressThenRelease i 10 m)).onlyLit i ∧
      (run d (pressThenRelease i 10 m)).IDA0 = (i - 1) * DACSTEP := by
  have hv := hr.valid
  have hne : pressThenRelease i 10 m ≠ [] := by simp [pressThenRelease, List.replicate_succ]
  have hout := run_steady_output d hs hv _ hne
  have hpos : (run d (pressThenRelease i 10 m)).statics.btnpos = i := by
    rw [(run_steady d hs _).1]
    unfold pressThenRelease
    rw [calls_append, released_btnpos _ (calls_bounded _ hv.1 _), pressed_btnpos _ hv.1 i h1 h6]
  rw [hpos] at hout
  exact ⟨hpos, hout⟩

/-- Witness of C1: switch 4 held for ten ticks right after the animation, then released for
three ticks. -/
theorem scenario_B_select_and_hold_witness :
    (run settled (pressThenRelease 4 10 3)).statics.btnpos = 4 ∧
      (run settled (pressThenRelease 4 10 3)).onlyLit 4 ∧
      (run settled (pressThenRelease 4 10 3)).IDA0 = (4 - 1) * DACSTEP :=
  scenario_B_select_and_hold 4 (by decide) (by decide) settled settled_reachable settled_steady 3

/-- **C2** (debounce stability). For every position `i`, every `n < 10` and every steady-state
state reachable from boot whose counter `i` is 0: during `n` ticks with only switch `i` active
followed by `m` ticks with no switch active, on each tick (the one that follows any prefix `ps`
of the sequence) `ButtonPos` returns the position stored before the press began. -/
theorem debounce_stability (i : Nat) (h1 : 1 ≤ i) (h6 : i ≤ 6) (n : Nat) (hn : n < 10)
    (d : Device) (hr : Reachable d) (hs : Steady d) (h0 : d.statics.counter i = 0) (m : Nat)
    (ps : List Pins) (p : Pins) (qs : List Pins) (hseq : pressThenRelease i n m = ps ++ p :: qs) :
    (ButtonPos (run d ps).statics p).1 = d.statics.btnpos := by
  have hv := hr.valid
  have e : ps ++ [p] = (pressThenRelease i n m).take (ps.length + 1) := by
    rw [hseq, show ps ++ p :: qs = (ps ++ [p]) ++ qs by simp, List.take_append_eq_append_take]
    simp
  rw [take_pressThenRelease] at e
  have key := short_press_btnpos d.statics hv.1 i h1 h6 h0 (min (ps.length + 1) n) (by omega)
    (min (ps.length + 1 - n) m)
  rw [← e, calls_append, calls_cons, calls_nil, ← (run_steady d hs ps).1] at key
  exact key

/-- Witness of C2: nine ticks of switch 2 right after the animation, then five ticks of release;
the tick examined is the third tick of the release. -/
theorem debounce_stability_witness :
    (ButtonPos (run settled (pressThenRelease 2 9 2)).statics noneActive).1
      = settled.statics.btnpos :=
  debounce_stability 2 (by decide) (by decide) 9 (by decide) settled settled_reachable
    settled_steady (by rw [settled_facts.2]; rfl) 5 (pressThenRelease 2 9 2) noneActive
    (List.replicate 2 noneActive) (by decide)

/-- **C3** (debounce monotonicity), amended. For every position `i`, every resolver state with
all counters in `[0,10]` and counter `i` at 0, and every sequence of ten ticks of switch readings
on each of which switch `i` is the only active switch, after the tenth tick counter `i` equals
`DEBOUNCECOUNT` and `btnpos = i`. -/
theorem debounce_monotonicity_sole_press (i : Nat) (h1 : 1 ≤ i) (h6 : i ≤ 6) (s : Statics)
    (hs : s.Bounded) (h0 : s.counter i = 0) (ps : List Pins) (hlen : ps.length = 10)
    (hact : ∀ p ∈ ps, ∀ j, 1 ≤ j → j ≤ 6 → (p.active j = true ↔ j = i)) :
    (calls s ps).counter i = DEBOUNCECOUNT ∧ (calls s ps).btnpos = i := by
  have e : ps = List.replicate 10 (onlyActive i) :=
    List.eq_replicate_iff.mpr ⟨hlen, fun p hp => eq_onlyActive p i h1 h6 (hact p hp)⟩
  subst e
  refine ⟨?_, pressed_btnpos s hs i h1 h6⟩
  rw [pressed_counter s hs i i h1 h6 h1 h6, if_pos rfl, h0]
  rfl

/-- Witness of C3 (amended): switch 3 alone for ten ticks from the boot statics. -/
theorem debounce_monotonicity_sole_press_witness :
    (calls bootStatics (List.replicate 10 (onlyActive 3))).counter 3 = DEBOUNCECOUNT ∧
      (calls bootStatics (List.replicate 10 (onlyActive 3))).btnpos = 3 :=
  debounce_monotonicity_sole_press 3 (by decide) (by decide) bootStatics bootStatics_valid.1 rfl
    (List.replicate 10 (onlyActive 3)) rfl
    (fun p hp j g1 g6 => by
      rw [List.eq_of_mem_replicate hp]
      exact onlyActive_active 3 j (by decide) (by decide) g1 g6)

/-- Counterexample to C3 as stated: from the boot statics (all counters in range, counter 2 at 0)
switch 2 is active on each of ten ticks, switch 3 being active as well; after the tenth tick
counter 2 is still 0, no counter is at `DEBOUNCECOUNT`, and `btnpos` is 1, not 2. -/
theorem debounce_monotonicity_counterexample :
    bootStatics.counter 2 = 0 ∧
      (∀ p ∈ List.replicate 10 (bothActive 2 3), p.active 2 = true) ∧
      (calls bootStatics (List.replicate 10 (bothActive 2 3))).counter 2 ≠ DEBOUNCECOUNT ∧
      (∀ k, 1 ≤ k → k ≤ 6 →
        (calls bootStatics (List.replicate 10 (bothActive 2 3))).counter k ≠ DEBOUNCECOUNT) ∧
      (calls bootStatics (List.replicate 10 (bothActive 2 3))).btnpos ≠ 2 := by
  rw [calls_boot_bothActive 2 3 (by decide) (by decide) (by decide) 10]
  refine ⟨rfl, fun p hp => by rw [List.eq_of_mem_replicate hp]; rfl, by decide, ?_, by decide⟩
  intro k g1 g6
  interval_cases k <;> decide

/-- **C4** (output mapping). On a steady-state tick, with `v` the value returned by `ButtonPos`:
if `v` is in 2..6 then exactly LED `v` is lit and `IDA0 = (v - 1) * DACSTEP`; for `v = 1` and for
every other value exactly LED 1 is lit and `IDA0 = 0`. -/
theorem output_mapping (d : Device) (hs : Steady d) (p : Pins) (v : Nat)
    (hv : (ButtonPos d.statics p).1 = v) :
    ((2 ≤ v ∧ v ≤ 6) → (Timer3_ISR d p).onlyLit v ∧ (Timer3_ISR d p).IDA0 = (v - 1) * DACSTEP) ∧
      (¬ (2 ≤ v ∧ v ≤ 6) → (Timer3_ISR d p).onlyLit 1 ∧ (Timer3_ISR d p).IDA0 = 0) := by
  rw [Timer3_ISR_steady d p hs, hv]
  exact ⟨fun h => outputSwitch_valid v _ (by omega) h.2, fun h => outputSwitch_default v _ h⟩

/-- Witness of C4: a steady-state tick on which `ButtonPos` returns the out-of-range value 7. -/
theorem output_mapping_witness :
    (Timer3_ISR { boot with appState := 2050, statics := { bootStatics with btnpos := 7 } }
        noneActive).onlyLit 1 ∧
      (Timer3_ISR { boot with appState := 2050, statics := { bootStatics with btnpos := 7 } }
        noneActive).IDA0 = 0 :=
  (output_mapping { boot with appState := 2050, statics := { bootStatics with btnpos := 7 } }
    (by unfold Steady; decide) noneActive 7 (by decide)).2 (by decide)

/-- **C5** (clamp bounds). From the boot state, after any sequence of `ButtonPos` calls (and after
any sequence of ticks of the device), each of the six counters lies in `[0, DEBOUNCECOUNT]`. -/
theorem clamp_bounds (ps : List Pins) :
    (calls bootStatics ps).Bounded ∧ (run boot ps).statics.Bounded :=
  ⟨calls_bounded bootStatics bootStatics_valid.1 ps, (run_valid boot bootStatics_valid ps).1⟩

/-- **C6** (selection scan). For every resolver state and every six switch readings, the value
returned by one `ButtonPos` call is the stored `btnpos`; it is the highest-numbered position whose
updated counter equals `DEBOUNCECOUNT` if there is one, and the position stored before the call if
no updated counter equals `DEBOUNCECOUNT`. -/
theorem selection_scan (s : Statics) (p : Pins) :
    (ButtonPos s p).1 = (ButtonPos s p).2.btnpos ∧
      (∀ j, 1 ≤ j → j ≤ 6 → (ButtonPos s p).2.counter j = DEBOUNCECOUNT →
        (∀ k, j < k → k ≤ 6 → (ButtonPos s p).2.counter k ≠ DEBOUNCECOUNT) →
        (ButtonPos s p).2.btnpos = j) ∧
      ((∀ j, 1 ≤ j → j ≤ 6 → (ButtonPos s p).2.counter j ≠ DEBOUNCECOUNT) →
        (ButtonPos s p).2.btnpos = s.btnpos) :=
  ⟨rfl, fun j h1 h6 hj hk => ButtonPos_btnpos_of_sat s p j h1 h6 hj hk,
    fun h => ButtonPos_btnpos_of_unsat s p h⟩

/-- Witness of C6: counters 2 and 5 both at the limit and both switches held; position 5 wins. -/
theorem selection_scan_witness :
    (ButtonPos { bootStatics with btn2 := 10, btn5 := 10 } (bothActive 2 5)).2.btnpos = 5 :=
  (selection_scan { bootStatics with btn2 := 10, btn5 := 10 } (bothActive 2 5)).2.1 5
    (by decide) (by decide) (by decide) (fun k hk k6 => by interval_cases k; decide)

/-- **C7** (simultaneous press), amended. For every pair of positions `i < j`, starting from the
boot statics, holding switches `i` and `j` both active (the other four inactive) for any number
of consecutive ticks leaves the statics as they were at boot: all six counters 0 and `btnpos` 1. -/
theorem simultaneous_press_inert (i j : Nat) (h1 : 1 ≤ i) (hij : i < j) (h6 : j ≤ 6) (n : Nat) :
    calls bootStatics (List.replicate n (bothActive i j)) = bootStatics :=
  calls_boot_bothActive i j h1 hij h6 n

/-- Witness of C7 (amended): switches 2 and 5 held together for ten ticks. -/
theorem simultaneous_press_inert_witness :
    calls bootStatics (List.replicate 10 (bothActive 2 5)) = bootStatics :=
  simultaneous_press_inert 2 5 (by decide) (by decide) (by decide) 10

/-- Counterexample to C7 as stated: switches 2 and 5 held together for ten ticks from boot leave
counters 2 and 5 at 0, not at `DEBOUNCECOUNT`, and `btnpos` at 1, not at 5. -/
theorem simultaneous_press_counterexample :
    (calls bootStatics (List.replicate 10 (bothActive 2 5))).counter 2 = 0 ∧
      (calls bootStatics (List.replicate 10 (bothActive 2 5))).counter 5 = 0 ∧
      (calls bootStatics (List.replicate 10 (bothActive 2 5))).btnpos = 1 ∧
      ¬ ((calls bootStatics (List.replicate 10 (bothActive 2 5))).counter 2 = DEBOUNCECOUNT ∧
        (calls bootStatics (List.replicate 10 (bothActive 2 5))).counter 5 = DEBOUNCECOUNT ∧
        (calls bootStatics (List.replicate 10 (bothActive 2 5))).btnpos = 5) := by
  rw [calls_boot_bothActive 2 5 (by decide) (by decide) (by decide) 10]
  decide

/-- **C8** (per-counter update rule), amended. For every resolver state with counters in `[0,10]`
and every six switch readings, with `k` the number of active switches and `c` the value of counter
`i` before the call, after one `ButtonPos` call counter `i` equals `min (max (c + 2 - k) 0) 10` if
switch `i` is active and `min (max (c - 1 - k) 0) 10` if it is inactive. -/
theorem per_counter_rule_weighted (s : Statics) (hs : s.Bounded) (p : Pins) (i : Nat)
    (h1 : 1 ≤ i) (h6 : i ≤ 6) :
    (ButtonPos s p).2.counter i =
      if p.active i then min (max (s.counter i + 2 - p.numActive) 0) DEBOUNCECOUNT
      else min (max (s.counter i - 1 - p.numActive) 0) DEBOUNCECOUNT := by
  rw [ButtonPos_counter s hs p i h1 h6, limit_eq]
  unfold Pins.delta
  split <;> congr 2 <;> omega

/-- Witness of C8 (amended): counter 4 at 7 with switches 1 and 4 active stays at 7. -/
theorem per_counter_rule_weighted_witness :
    (ButtonPos { bootStatics with btn4 := 7 } (bothActive 1 4)).2.counter 4 =
      if (bothActive 1 4).active 4 then
        min (max (Statics.counter { bootStatics with btn4 := 7 } 4 + 2 - (bothActive 1 4).numActive) 0)
          DEBOUNCECOUNT
      else
        min (max (Statics.counter { bootStatics with btn4 := 7 } 4 - 1 - (bothActive 1 4).numActive) 0)
          DEBOUNCECOUNT :=
  per_counter_rule_weighted { bootStatics with btn4 := 7 }
    (by simp [Statics.Bounded, bootStatics, DEBOUNCECOUNT]) (bothActive 1 4) 4 (by decide) (by decide)

/-- Counterexample to C8 as stated: from the boot statics with switches 1 and 2 active, switch 1 is
active but counter 1 stays 0 instead of becoming `min (0 + 1) 10 = 1`; with only switch 1 active
a counter 2 of 5 drops to 3 instead of `max (5 - 1) 0 = 4`; and two readings that agree on
switch 1 give different values of counter 1. -/
theorem per_counter_rule_counterexample :
    ((bothActive 1 2).active 1 = true ∧
      (ButtonPos bootStatics (bothActive 1 2)).2.counter 1
        ≠ min (bootStatics.counter 1 + 1) DEBOUNCECOUNT) ∧
    ((onlyActive 1).active 2 = false ∧
      (ButtonPos { bootStatics with btn2 := 5 } (onlyActive 1)).2.counter 2
        ≠ max (Statics.counter { bootStatics with btn2 := 5 } 2 - 1) 0) ∧
    ((onlyActive 1).active 1 = (bothActive 1 2).active 1 ∧
      (ButtonPos bootStatics (onlyActive 1)).2.counter 1
        ≠ (ButtonPos bootStatics (bothActive 1 2)).2.counter 1) := by
  decide

/-- **C9** (the resolved position is valid). From boot, for every sequence of switch readings,
every value returned by `ButtonPos` is in `{1,...,6}`, both for a bare sequence of calls and for
the calls made by the device ticks. -/
theorem resolved_position_valid (ps : List Pins) (p : Pins) :
    (1 ≤ (ButtonPos (calls bootStatics ps) p).1 ∧ (ButtonPos (calls bootStatics ps) p).1 ≤ 6) ∧
      (1 ≤ (ButtonPos (run boot ps).statics p).1 ∧ (ButtonPos (run boot ps).statics p).1 ≤ 6) :=
  ⟨ButtonPos_btnpos_range _ p (calls_btnpos_range bootStatics bootStatics_valid.2 ps),
    ButtonPos_btnpos_range _ p (run_valid boot bootStatics_valid ps).2⟩

/-- **C10** (animation sweep order), amended. For every tick whose tick count `t` (`appState` on
entry) satisfies `STARTUPANIMSTEP ≤ t < 2050`, with `p = (t - STARTUPANIMSTEP) mod
(10 * STARTUPANIMSTEP)` and bin `b = p div STARTUPANIMSTEP`, the tick lights exactly the LED
numbered `S[b]` where `S = [2,3,4,5,6,5,4,3,2,1]`. -/
theorem animation_sweep_order (d : Device) (p : Pins) (h1 : STARTUPANIMSTEP ≤ d.appState)
    (h2 : d.appState < 10 * STARTUPANIMSTEP * ANIMATIONCOUNT + STARTUPANIMSTEP) :
    (Timer3_ISR d p).onlyLit
      (sweepOrder.getD ((d.appState - STARTUPANIMSTEP) % (10 * STARTUPANIMSTEP) / STARTUPANIMSTEP) 0) :=
  Timer3_ISR_sweep d p h1 h2

/-- Witness of C10 (amended): the tick with tick count 549 (bin 9) lights LED 1. -/
theorem animation_sweep_order_witness :
    (Timer3_ISR { boot with appState := 549 } noneActive).onlyLit
      (sweepOrder.getD ((549 - STARTUPANIMSTEP) % (10 * STARTUPANIMSTEP) / STARTUPANIMSTEP) 0) :=
  animation_sweep_order { boot with appState := 549 } noneActive (by decide) (by decide)

/-- Counterexample to C10 as stated: the tick with tick count 50 (the 51st tick from boot, bin 0)
lights exactly LED 2, not LED `S[0] = 1` of the claimed sequence `[1,2,3,4,5,6,5,4,3,2]`. -/
theorem animation_sweep_order_counterexample :
    (run boot (List.replicate 50 noneActive)).appState = 50 ∧
      sweepClaimed.getD ((50 - STARTUPANIMSTEP) % (10 * STARTUPANIMSTEP) / STARTUPANIMSTEP) 0 = 1 ∧
      (Timer3_ISR (run boot (List.replicate 50 noneActive)) noneActive).onlyLit 2 ∧
      ¬ (Timer3_ISR (run boot (List.replicate 50 noneActive)) noneActive).onlyLit 1 := by
  have ha := animation_appState 50 (by decide)
  have hl := Timer3_ISR_sweep (run boot (List.replicate 50 noneActive)) noneActive
    (by rw [ha]; decide) (by rw [ha]; decide)
  rw [ha] at hl
  have hl2 : (Timer3_ISR (run boot (List.replicate 50 noneActive)) noneActive).onlyLit 2 := hl
  refine ⟨ha, by decide, hl2, fun h1 => ?_⟩
  have e2 := (hl2 2 (by decide) (by decide)).mpr rfl
  exact absurd ((h1 2 (by decide) (by decide)).mp e2) (by decide)

/-- **C11** (animation bounds). For every tick whose tick count on entry is below `T = 2050`,
whatever the switches and whatever the LEDs showed before, after the tick exactly one of the six
LEDs is on; the LEDs after the tick do not depend on the LEDs before it, so `StartupAnimation`
never falls through its range tests without writing them. -/
theorem animation_bounds (d : Device) (p : Pins)
    (h : d.appState < 10 * STARTUPANIMSTEP * ANIMATIONCOUNT + STARTUPANIMSTEP) :
    (∃ k, 1 ≤ k ∧ k ≤ 6 ∧ (Timer3_ISR d p).onlyLit k) ∧
      (∀ (a b c e f g : Bool) (j : Nat), 1 ≤ j → j ≤ 6 →
        (Timer3_ISR (setLEDs d a b c e f g) p).led j = (Timer3_ISR d p).led j) := by
  refine ⟨⟨animationLed d.appState, (animationLed_range _).1, (animationLed_range _).2, ?_⟩,
    fun a b c e f g j g1 g6 => Timer3_ISR_animation_led d p h a b c e f g j g1 g6⟩
  rw [Timer3_ISR_animation d p (not_not.mpr h)]
  exact StartupAnimation_closed d h

/-- Witness of C11: the last animation tick (tick count 2049), entered with all LEDs off. -/
theorem animation_bounds_witness :
    (∃ k, 1 ≤ k ∧ k ≤ 6 ∧ (Timer3_ISR { boot with appState := 2049 } noneActive).onlyLit k) ∧
      (∀ (a b c e f g : Bool) (j : Nat), 1 ≤ j → j ≤ 6 →
        (Timer3_ISR (setLEDs { boot with appState := 2049 } a b c e f g) noneActive).led j
          = (Timer3_ISR { boot with appState := 2049 } noneActive).led j) :=
  animation_bounds { boot with appState := 2049 } noneActive (by decide)

/-- **C12** (animation length and one-way latch). From boot, for every sequence `f` of switch
readings, with `T = STARTUPANIMSTEP + 10 * STARTUPANIMSTEP * ANIMATIONCOUNT = 2050`: the tick
numbered `k` finds the dispatcher in steady state iff `T ≤ k`; for `k < T` the tick is one call of
`StartupAnimation`; for `T ≤ k` it is one call of `ButtonPos` followed by the output switch; and
from a steady state every later state is steady. -/
theorem animation_length_and_latch (f : Nat → Pins) (k : Nat) :
    STARTUPANIMSTEP + 10 * STARTUPANIMSTEP * ANIMATIONCOUNT = 2050 ∧
      (Steady (ticks f k) ↔ 2050 ≤ k) ∧
      (k < 2050 → ticks f (k + 1) = StartupAnimation (ticks f k)) ∧
      (2050 ≤ k → ticks f (k + 1) =
        outputSwitch (ButtonPos (ticks f k).statics (f k)).1
          { ticks f k with statics := (ButtonPos (ticks f k).statics (f k)).2 }) ∧
      (∀ d : Device, Steady d → ∀ ps : List Pins, Steady (run d ps)) := by
  refine ⟨by decide, ticks_steady_iff f k, fun hk => ?_, fun hk => ?_, run_steady_latch⟩
  · rw [ticks_succ, Timer3_ISR_animation _ _ (fun hs => by
      have := (ticks_steady_iff f k).mp hs
      omega)]
  · rw [ticks_succ, Timer3_ISR_steady _ _ ((ticks_steady_iff f k).mpr hk)]

/-- Witness of C12: the tick numbered 2050 is the first to call `ButtonPos`. -/
theorem animation_length_and_latch_witness :
    ticks (fun _ => noneActive) (2050 + 1) =
      outputSwitch (ButtonPos (ticks (fun _ => noneActive) 2050).statics noneActive).1
        { ticks (fun _ => noneActive) 2050 with
          statics := (ButtonPos (ticks (fun _ => noneActive) 2050).statics noneActive).2 } :=
  (animation_length_and_latch (fun _ => noneActive) 2050).2.2.2.1 (by decide)

/-- **C13** (end-to-end scenario A). From boot, if no switch is ever active, then after every tick
numbered `k ≥ 2050` the stored position is 1, exactly LED 1 is lit and the analog code is 0. -/
theorem scenario_A_idle (f : Nat → Pins)
    (hf : ∀ k j, 1 ≤ j → j ≤ 6 → (f k).active j = false) (k : Nat) (hk : 2050 ≤ k) :
    (ticks f (k + 1)).statics.btnpos = 1 ∧ (ticks f (k + 1)).onlyLit 1 ∧
      (ticks f (k + 1)).IDA0 = 0 := by
  have hn : ∀ k, f k = noneActive := fun k => eq_noneActive (f k) (hf k)
  have hpos := ticks_idle_statics f hn (k + 1)
  have hout := run_steady_output (ticks f k) ((ticks_steady_iff f k).mpr hk) (ticks_valid f k)
    [f k] (by simp)
  rw [show run (ticks f k) [f k] = ticks f (k + 1) from (ticks_succ f k).symm, hpos] at hout
  exact ⟨hpos, hout.1, by rw [hout.2]; rfl⟩

/-- Witness of C13: no switch ever active, the state after the tick numbered 2050. -/
theorem scenario_A_idle_witness :
    (ticks (fun _ => noneActive) (2050 + 1)).statics.btnpos = 1 ∧
      (ticks (fun _ => noneActive) (2050 + 1)).onlyLit 1 ∧
      (ticks (fun _ => noneActive) (2050 + 1)).IDA0 = 0 :=
  scenario_A_idle (fun _ => noneActive) (fun _ j _ _ => noneActive_active j) 2050 (by decide)

/-- **C14** (no analog output change during animation). For every switch reading, a tick that
takes the animation branch leaves `IDA0` and the statics of `ButtonPos` unchanged (it writes only
`appState` and the six LEDs); so from boot `IDA0` is 0 after each of the first 2050 ticks. -/
theorem animation_keeps_analog (d : Device) (p : Pins) (h : ¬ Steady d) :
    (Timer3_ISR d p).IDA0 = d.IDA0 ∧ (Timer3_ISR d p).statics = d.statics ∧
      (∀ (f : Nat → Pins) (n : Nat), n ≤ 2050 → (ticks f n).IDA0 = 0) := by
  rw [Timer3_ISR_animation d p h]
  exact ⟨(StartupAnimation_frame d).2.1, (StartupAnimation_frame d).1,
    fun f n hn => (ticks_animation f n hn).2⟩

/-- Witness of C14: the first tick from boot with switch 6 active. -/
theorem animation_keeps_analog_witness :
    (Timer3_ISR boot (onlyActive 6)).IDA0 = boot.IDA0 ∧
      (Timer3_ISR boot (onlyActive 6)).statics = boot.statics ∧
      (∀ (f : Nat → Pins) (n : Nat), n ≤ 2050 → (ticks f n).IDA0 = 0) :=
  animation_keeps_analog boot (onlyActive 6) (by unfold Steady; decide)

/-- **C15** (analog code range). `DACMAX = 16383`, `DACSTEP = 3276`; the codes written for
positions 1..6 are 0, 3276, 6552, 9828, 13104, 16380, strictly increasing with the position and
each at most `DACMAX`; and every product `k * DACSTEP` with `k ≤ 5` is unchanged by 16-bit signed
arithmetic and by the conversion to `uint16_t`. -/
theorem analog_code_range (d : Device) :
    DACMAX = 16383 ∧ DACSTEP = 3276 ∧
      ((outputSwitch 1 d).IDA0 = 0 ∧ (outputSwitch 2 d).IDA0 = 3276 ∧
        (outputSwitch 3 d).IDA0 = 6552 ∧ (outputSwitch 4 d).IDA0 = 9828 ∧
        (outputSwitch 5 d).IDA0 = 13104 ∧ (outputSwitch 6 d).IDA0 = 16380) ∧
      (∀ v w, 1 ≤ v → v < w → w ≤ 6 → (outputSwitch v d).IDA0 < (outputSwitch w d).IDA0) ∧
      (∀ v, 1 ≤ v → v ≤ 6 → (outputSwitch v d).IDA0 ≤ DACMAX) ∧
      (∀ k : Nat, k ≤ 5 →
        toShort ((k : Int) * (DACSTEP : Int)) = (k : Int) * (DACSTEP : Int) ∧
        k * DACSTEP % 65536 = k * DACSTEP) := by
  have hc := outputSwitch_codes d
  refine ⟨by decide, by decide, hc, fun v w h1 hvw h6 => ?_, fun v h1 h6 => ?_, fun k hk => ?_⟩
  · have hv : v ≤ 5 := by omega
    interval_cases v <;> interval_cases w <;> omega
  · interval_cases v <;>
      (simp only [hc.1, hc.2.1, hc.2.2.1, hc.2.2.2.1, hc.2.2.2.2.1, hc.2.2.2.2.2]; decide)
  · interval_cases k <;> decide

/-- **C16** (tick counter), amended. A tick that takes the animation branch increases `appState`
by exactly 1; a tick that takes the steady-state branch leaves `appState` unchanged; so from boot
`appState` after `n` ticks is `min n 2050`: it never decreases and is never reset, and it is held
at 2050 once the animation has ended. -/
theorem tick_counter_counts_animation (d : Device) (p : Pins) :
    (¬ Steady d → (Timer3_ISR d p).appState = d.appState + 1) ∧
      (Steady d → (Timer3_ISR d p).appState = d.appState) ∧
      (∀ (f : Nat → Pins) (n : Nat), (ticks f n).appState = min n 2050) :=
  ⟨Timer3_ISR_appState_animation d p, Timer3_ISR_appState_steady d p, ticks_appState⟩

/-- Witness of C16 (amended): the first steady-state tick holds `appState`. -/
theorem tick_counter_counts_animation_witness :
    (Timer3_ISR settled noneActive).appState = settled.appState :=
  (tick_counter_counts_animation settled noneActive).2.1 settled_steady

/-- Counterexample to C16 as stated: the tick that follows the 2050 animation ticks takes the
steady-state branch and leaves `appState` at 2050 instead of raising it to 2051. -/
theorem tick_counter_counterexample :
    Steady settled ∧ settled.appState = 2050 ∧
      (Timer3_ISR settled noneActive).appState = 2050 ∧
      (Timer3_ISR settled noneActive).appState ≠ settled.appState + 1 := by
  have h := Timer3_ISR_appState_steady settled noneActive settled_steady
  rw [settled_facts.1] at h
  refine ⟨settled_steady, settled_facts.1, h, ?_⟩
  rw [h, settled_facts.1]
  decide

/-- **C17** (closed form of the start-up animation). For every tick count `t < 2050` (`appState`
on entry) the tick is a call of `StartupAnimation`, which lights exactly the LED numbered
`S[(t div 50) mod 10]` with `S = [1,2,3,4,5,6,5,4,3,2]`; LED 1 alone is lit for `t` in 0..49 and for
`t` in 2000..2049. -/
theorem animation_closed_form (d : Device) (p : Pins)
    (h : d.appState < 10 * STARTUPANIMSTEP * ANIMATIONCOUNT + STARTUPANIMSTEP) :
    Timer3_ISR d p = StartupAnimation d ∧
      (StartupAnimation d).onlyLit (sweepClaimed.getD (d.appState / 50 % 10) 0) ∧
      (d.appState < 50 → (StartupAnimation d).onlyLit 1) ∧
      (2000 ≤ d.appState → (StartupAnimation d).onlyLit 1) := by
  have key := StartupAnimation_closed d h
  refine ⟨Timer3_ISR_animation d p (not_not.mpr h), key, fun h50 => ?_, fun h2000 => ?_⟩
  · rw [animationLed_hold _ h50] at key
    exact key
  · rw [animationLed_last _ h2000 h] at key
    exact key

/-- Witness of C17: tick count 1234, bin `(1234 div 50) mod 10 = 4`, LED 5. -/
theorem animation_closed_form_witness :
    (StartupAnimation { boot with appState := 1234 }).onlyLit 5 :=
  (animation_closed_form { boot with appState := 1234 } noneActive (by decide)).2.1

/-- **C18** (multi-press is inert). In every resolver state reachable from boot, on a call with
two or more switches active (`k` of them): before limiting, the counter of an active switch has
changed by `2 - k` and that of an inactive switch by `-1 - k`; after limiting no counter is larger
than before; and `ButtonPos` returns the position stored before the call. -/
theorem multi_press_inert (ps : List Pins) (p : Pins) (hk : 2 ≤ p.numActive) :
    (∀ i, 1 ≤ i → i ≤ 6 →
      (weighAll (calls bootStatics ps) p).counter i =
        (calls bootStatics ps).counter i
          + (if p.active i then 2 - p.numActive else -1 - p.numActive) ∧
      (ButtonPos (calls bootStatics ps) p).2.counter i
        = limit ((weighAll (calls bootStatics ps) p).counter i) ∧
      (ButtonPos (calls bootStatics ps) p).2.counter i ≤ (calls bootStatics ps).counter i) ∧
    (ButtonPos (calls bootStatics ps) p).1 = (calls bootStatics ps).btnpos := by
  have hb := calls_bounded bootStatics bootStatics_valid.1 ps
  have hu := calls_unique bootStatics bootStatics_valid.1 bootStatics_unique ps
  have hm := multi_press _ hb hu p hk
  exact ⟨fun i h1 h6 => ⟨weighAll_counter _ hb p i h1 h6, ButtonPos_weighAll _ p i h1 h6,
    hm.1 i h1 h6⟩, hm.2⟩

/-- Witness of C18: position 3 selected by a ten-tick press, then switches 3 and 5 together. -/
theorem multi_press_inert_witness :
    (ButtonPos (calls bootStatics (List.replicate 10 (onlyActive 3))) (bothActive 3 5)).1
      = (calls bootStatics (List.replicate 10 (onlyActive 3))).btnpos :=
  (multi_press_inert (List.replicate 10 (onlyActive 3)) (bothActive 3 5) (by decide)).2

/-- **C19** (unique winner invariant). In every resolver state reachable from boot, by bare
`ButtonPos` calls or by device ticks, at most one of the six counters equals `DEBOUNCECOUNT`, and
whenever counter `i` equals `DEBOUNCECOUNT` the stored `btnpos` equals `i`. -/
theorem unique_winner (ps : List Pins) :
    ((∀ i j, 1 ≤ i → i ≤ 6 → 1 ≤ j → j ≤ 6 →
        (calls bootStatics ps).counter i = DEBOUNCECOUNT →
        (calls bootStatics ps).counter j = DEBOUNCECOUNT → i = j) ∧
      (∀ i, 1 ≤ i → i ≤ 6 → (calls bootStatics ps).counter i = DEBOUNCECOUNT →
        (calls bootStatics ps).btnpos = i)) ∧
    ((∀ i j, 1 ≤ i → i ≤ 6 → 1 ≤ j → j ≤ 6 →
        (run boot ps).statics.counter i = DEBOUNCECOUNT →
        (run boot ps).statics.counter j = DEBOUNCECOUNT → i = j) ∧
      (∀ i, 1 ≤ i → i ≤ 6 → (run boot ps).statics.counter i = DEBOUNCECOUNT →
        (run boot ps).statics.btnpos = i)) :=
  ⟨calls_unique bootStatics bootStatics_valid.1 bootStatics_unique ps, run_unique ps⟩

/-- Witness of C19: after a ten-tick press of switch 3 counter 3 is at the limit, so `btnpos`
is 3. -/
theorem unique_winner_witness :
    (calls bootStatics (List.replicate 10 (onlyActive 3))).btnpos = 3 :=
  (unique_winner (List.replicate 10 (onlyActive 3))).1.2 3 (by decide) (by decide)
    (by
      rw [pressed_counter bootStatics bootStatics_valid.1 3 3 (by decide) (by decide) (by decide)
        (by decide) 10]
      rfl)

/-- **C20** (switch readings during the start-up animation are ignored). For any two sequences
of switch readings that agree on every tick numbered `≥ 2050`, the whole device state (LEDs,
analog code, the six counters, the stored position, `appState`) is the same after every number `n`
of ticks; and the resolver enters steady state with all counters 0 and position 1. -/
theorem animation_ignores_switches (f g : Nat → Pins) (h : ∀ k, 2050 ≤ k → f k = g k) (n : Nat) :
    ticks f n = ticks g n ∧ (ticks f 2050).statics = bootStatics ∧ Steady (ticks f 2050) :=
  ⟨ticks_congr f g h n, (ticks_animation f 2050 (by decide)).1,
    (ticks_steady_iff f 2050).mpr (by decide)⟩

/-- Witness of C20: switch 3 held throughout the animation against no switch at all, ten ticks
into steady state. -/
theorem animation_ignores_switches_witness :
    ticks (fun k => if k < 2050 then onlyActive 3 else noneActive) 2060
        = ticks (fun _ => noneActive) 2060 ∧
      (ticks (fun k => if k < 2050 then onlyActive 3 else noneActive) 2050).statics
        = bootStatics ∧
      Steady (ticks (fun k => if k < 2050 then onlyActive 3 else noneActive) 2050) :=
  animation_ignores_switches (fun k => if k < 2050 then onlyActive 3 else noneActive)
    (fun _ => noneActive) (fun k hk => if_neg (by omega)) 2060

end TX16S
